import Mathlib

/-!
Verification development for the `oscd-replace-ieds` plugin.

The plugin edits an SCL (IEC 61850) configuration document: an XML tree of
IEDs (devices), logical nodes, control blocks, external references and
supervision records.  We embed the document as an id-indexed store of
element nodes (`Dom`) so that detached subtrees, clones and ordered edit
batches (`Insert`/`Remove` primitives, as in `@openscd/open-scd-core`) can
be represented faithfully, and translate the plugin's functions
(`isSubscribed`, `isSubscribedTo`, `controlBlockReference`,
`removeSubscriptionSupervision`, `maxSupervisions`, `isSupervisionAllowed`,
`instantiateSubscriptionSupervision`, `replaceIeds`, ...) over it.
-/

namespace Oscd

/-- Data carried by one element node: its tag name, its attribute list
(first binding wins on lookup, as in the DOM) and the character data it
directly contains (used for `Val` elements, whose `textContent` the source
reads and writes; all other queried elements hold no character data). -/
structure NodeData where
  tag : String
  attrs : List (String × String)
  text : String
deriving Repr, DecidableEq

/-- An XML document together with any detached subtrees: a store of element
nodes indexed by numeric ids, a child list per element id, the id of the
document element, and a supply of fresh ids for `createElement` /
`cloneNode` / `importNode`.  An id that appears in no child list and is not
the root is a detached node (removed or not yet inserted). -/
structure Dom where
  nodes : List (Nat × NodeData)
  children : List (Nat × List Nat)
  rootId : Nat
  nextId : Nat
deriving Repr, DecidableEq

/-- Node data of an element id (a default empty element if absent). -/
def getData (d : Dom) (n : Nat) : NodeData :=
  ((d.nodes.find? (fun p => p.1 = n)).map Prod.snd).getD ⟨"", [], ""⟩

/-- Tag name of an element id (`Element.tagName`). -/
def tagOf (d : Dom) (n : Nat) : String := (getData d n).tag

/-- Attribute lookup (`Element.getAttribute`): `none` models DOM `null`. -/
def attrOf (d : Dom) (n : Nat) (a : String) : Option String :=
  ((getData d n).attrs.find? (fun p => p.1 = a)).map Prod.snd

/-- Attribute presence (`Element.hasAttribute`). -/
def hasAttr (d : Dom) (n : Nat) (a : String) : Bool :=
  (attrOf d n a).isSome

/-- Directly contained character data (`textContent` of the leaf `Val`
elements the source reads). -/
def textOf (d : Dom) (n : Nat) : String := (getData d n).text

/-- Ordered child ids of an element (`Element.children`). -/
def kidsOf (d : Dom) (n : Nat) : List Nat :=
  ((d.children.find? (fun p => p.1 = n)).map Prod.snd).getD []

/-- Parent of an element (`Element.parentElement`): the first store entry
whose child list contains it. -/
def parentOf (d : Dom) (n : Nat) : Option Nat :=
  (d.children.find? (fun p => n ∈ p.2)).map Prod.fst

/-- Traversal fuel: one more than the number of stored nodes, enough to
visit every node of a well-formed document. -/
def fuelOf (d : Dom) : Nat := d.nodes.length + 1

/-- Fueled preorder traversal: the node itself followed by the preorder
lists of its children, i.e. document order. -/
def descAux (d : Dom) : Nat → Nat → List Nat
  | 0, _ => []
  | fuel + 1, n => n :: (kidsOf d n).flatMap (descAux d fuel)

/-- The subtree of an element in document order (the element included). -/
def descList (d : Dom) (n : Nat) : List Nat := descAux d (fuelOf d) n

/-- Strict descendants of an element in document order: the search space of
`element.querySelectorAll`. -/
def strictDesc (d : Dom) (n : Nat) : List Nat :=
  (kidsOf d n).flatMap (descAux d (fuelOf d))

/-- Fueled walk up the parent chain (`Element.closest`): the first
ancestor-or-self satisfying the predicate. -/
def closestAux (d : Dom) (p : Nat → Bool) : Nat → Nat → Option Nat
  | 0, _ => none
  | fuel + 1, n =>
      if p n then some n
      else match parentOf d n with
        | none => none
        | some q => closestAux d p fuel q

/-- `Element.closest` for a predicate on elements. -/
def closestP (d : Dom) (p : Nat → Bool) (n : Nat) : Option Nat :=
  closestAux d p (fuelOf d) n

/-- `Element.closest` for a list of admissible tag names, e.g.
`closest('LN0, LN')`. -/
def closestTag (d : Dom) (tags : List String) (n : Nat) : Option Nat :=
  closestP d (fun m => tags.contains (tagOf d m)) n

/-- Position of an element in its parent's child list. -/
def idxInParent (d : Dom) (n : Nat) : Option Nat :=
  match parentOf d n with
  | none => none
  | some p => (kidsOf d p).indexOf? n

/-- `Element.previousElementSibling`. -/
def prevElemSibling (d : Dom) (n : Nat) : Option Nat :=
  match parentOf d n with
  | none => none
  | some p =>
      match (kidsOf d p).indexOf? n with
      | none => none
      | some 0 => none
      | some (j + 1) => (kidsOf d p).get? j

/-- `Element.nextElementSibling`. -/
def nextElemSibling (d : Dom) (n : Nat) : Option Nat :=
  match parentOf d n with
  | none => none
  | some p =>
      match (kidsOf d p).indexOf? n with
      | none => none
      | some i => (kidsOf d p).get? (i + 1)

end Oscd

namespace Oscd

/-! JavaScript string values.  `getAttribute` yields a string or `null`;
optional chaining off a missing element yields `undefined`; both are falsy,
and template literals render them as `"null"` / `"undefined"`.  The guard
and the result string of `controlBlockReference` depend on this. -/

/-- A JavaScript value that is a string, `null`, or `undefined`. -/
inductive JsStr where
  | str (s : String)
  | null
  | undef
deriving Repr, DecidableEq

/-- Truthiness of a `JsStr`: the empty string, `null` and `undefined` are
falsy. -/
def JsStr.falsy : JsStr → Bool
  | .str s => s = ""
  | .null => true
  | .undef => true

/-- Rendering of a `JsStr` inside a template literal. -/
def JsStr.render : JsStr → String
  | .str s => s
  | .null => "null"
  | .undef => "undefined"

/-- Value of `elem?.getAttribute(a)`: `undefined` when the element is
absent, `null` when the attribute is absent. -/
def attrJs (d : Dom) (e : Option Nat) (a : String) : JsStr :=
  match e with
  | none => .undef
  | some n =>
      match attrOf d n a with
      | none => .null
      | some s => .str s

/-- Value of `elem?.getAttribute(a) ?? ''` as used throughout the source. -/
def attrOrEmpty (d : Dom) (e : Option Nat) (a : String) : String :=
  match e with
  | none => ""
  | some n => (attrOf d n a).getD ""

/-- Whether the left element's attribute has the same value as the right
element's attribute, an absent attribute or element counting as the empty
string (`sameAttributeValue` in the source). -/
def sameAttributeValue (d : Dom) (l r : Option Nat) (a : String) : Bool :=
  attrOrEmpty d l a = attrOrEmpty d r a

/-- Same check with differing attribute names on the two sides
(`sameAttributeValueDiffName` in the source). -/
def sameAttributeValueDiffName (d : Dom) (l : Option Nat) (la : String)
    (r : Option Nat) (ra : String) : Bool :=
  attrOrEmpty d l la = attrOrEmpty d r ra

/-- Schema edition string of the document (`getSclSchemaVersion`): the
concatenation of the root element's `version` (defaulting to `2003`),
`revision` and `release` attributes. -/
def getSclSchemaVersion (d : Dom) : String :=
  ((attrOf d d.rootId "version").getD "2003") ++
    ((attrOf d d.rootId "revision").getD "") ++
    ((attrOf d d.rootId "release").getD "")

/-- The two control-block kinds handled by the plugin, as the source's
`'SampledValueControl' | 'GSEControl'` union type. -/
inductive ControlTag where
  | gseControl
  | sampledValueControl
deriving Repr, DecidableEq

/-- The XML tag name of a control-block kind. -/
def ControlTag.tagName : ControlTag → String
  | .gseControl => "GSEControl"
  | .sampledValueControl => "SampledValueControl"

/-- The `serviceTypes` record of the source restricted to the two kinds the
plugin passes in: the message type implied by the control tag. -/
def serviceTypeOf : ControlTag → String
  | .gseControl => "GOOSE"
  | .sampledValueControl => "SMV"

/-- Edition-specific attribute checks (`checkEditionSpecificRequirements`):
trivially true for the 2003 edition; for later editions the `ExtRef`'s
`serviceType` must equal the message type of the control kind and its
`srcLDInst`, `srcPrefix`, `srcLNClass`, `srcLNInst` and `srcCBName` must
equal the corresponding attributes of the control block's enclosing
`LDevice`, enclosing `LN0`, and the control block itself. -/
def checkEditionSpecificRequirements (d : Dom) (controlTagName : ControlTag)
    (controlElement : Option Nat) (extRefElement : Nat) : Bool :=
  if getSclSchemaVersion d = "2003" then true
  else
    let lDeviceElement := controlElement.bind (closestTag d ["LDevice"])
    let lnElement := controlElement.bind (closestTag d ["LN0"])
    ((attrOf d extRefElement "serviceType").getD "" =
        serviceTypeOf controlTagName) &&
    sameAttributeValueDiffName d (some extRefElement) "srcLDInst"
      lDeviceElement "inst" &&
    sameAttributeValueDiffName d (some extRefElement) "srcPrefix"
      lnElement "prefix" &&
    sameAttributeValueDiffName d (some extRefElement) "srcLNClass"
      lnElement "lnClass" &&
    sameAttributeValueDiffName d (some extRefElement) "srcLNInst"
      lnElement "inst" &&
    sameAttributeValueDiffName d (some extRefElement) "srcCBName"
      controlElement "name"

/-- Whether an `ExtRef` element is subscribed (`isSubscribed`): the source
checks that the six identifying attributes are present via `hasAttribute`. -/
def isSubscribed (d : Dom) (extRefElement : Nat) : Bool :=
  hasAttr d extRefElement "iedName" &&
  hasAttr d extRefElement "ldInst" &&
  hasAttr d extRefElement "lnClass" &&
  hasAttr d extRefElement "lnInst" &&
  hasAttr d extRefElement "doName" &&
  hasAttr d extRefElement "daName"

/-- JavaScript strict equality between `extRef.getAttribute('iedName')` and
`fcda?.closest('IED')?.getAttribute('name')`: a string–string comparison,
or a comparison involving `null` / `undefined`, which are equal only to
themselves. -/
def iedNameMatches (d : Dom) (fcdaElement : Option Nat)
    (extRefElement : Nat) : Bool :=
  attrJs d (some extRefElement) "iedName" =
    attrJs d (fcdaElement.bind (closestTag d ["IED"])) "name"

/-- Whether an `ExtRef` subscribes to an `FCDA` (`isSubscribedTo`): the
`iedName` must strictly equal the name of the `FCDA`'s enclosing IED, six
attributes must match with empty-string defaulting, and the
edition-specific requirements must hold. -/
def isSubscribedTo (d : Dom) (controlTagName : ControlTag)
    (controlElement : Option Nat) (fcdaElement : Option Nat)
    (extRefElement : Nat) : Bool :=
  iedNameMatches d fcdaElement extRefElement &&
  sameAttributeValue d fcdaElement (some extRefElement) "ldInst" &&
  sameAttributeValue d fcdaElement (some extRefElement) "prefix" &&
  sameAttributeValue d fcdaElement (some extRefElement) "lnClass" &&
  sameAttributeValue d fcdaElement (some extRefElement) "lnInst" &&
  sameAttributeValue d fcdaElement (some extRefElement) "doName" &&
  sameAttributeValue d fcdaElement (some extRefElement) "daName" &&
  checkEditionSpecificRequirements d controlTagName controlElement
    extRefElement

/-- The `anyLn?.getAttribute('lnClass')` component of
`controlBlockReference`: `undefined` when no `LN`/`LN0` ancestor exists,
`null` when it lacks the attribute. -/
def cbrLnClass (d : Dom) (controlBlock : Nat) : JsStr :=
  attrJs d (closestTag d ["LN", "LN0"] controlBlock) "lnClass"

/-- The `closest('LDevice')?.getAttribute('inst')` component of
`controlBlockReference`. -/
def cbrLdInst (d : Dom) (controlBlock : Nat) : JsStr :=
  attrJs d (closestTag d ["LDevice"] controlBlock) "inst"

/-- The `closest('IED')?.getAttribute('name')` component of
`controlBlockReference`. -/
def cbrIedName (d : Dom) (controlBlock : Nat) : JsStr :=
  attrJs d (closestTag d ["IED"] controlBlock) "name"

/-- The `getAttribute('name')` component of `controlBlockReference`. -/
def cbrCbName (d : Dom) (controlBlock : Nat) : JsStr :=
  attrJs d (some controlBlock) "name"

/-- String pointer to a control block (`controlBlockReference`): `null` for
an absent argument, or when the control-block name, enclosing IED name,
enclosing LDevice instance and enclosing logical-node class are all falsy;
otherwise the template literal
iedName ++ ldInst ++ "/" ++ prefix ++ lnClass ++ lnInst ++ "." ++ cbName,
with `null` / `undefined` components rendered as such. -/
def controlBlockReference (d : Dom) (controlBlock : Option Nat) :
    Option String :=
  match controlBlock with
  | none => none
  | some cb =>
      let anyLn := closestTag d ["LN", "LN0"] cb
      let pfx := attrOrEmpty d anyLn "prefix"
      let lnClass := cbrLnClass d cb
      let lnInst := attrOrEmpty d anyLn "inst"
      let ldInst := cbrLdInst d cb
      let iedName := cbrIedName d cb
      let cbName := cbrCbName d cb
      if cbName.falsy && iedName.falsy && ldInst.falsy && lnClass.falsy then
        none
      else
        some (iedName.render ++ ldInst.render ++ "/" ++ pfx ++
          lnClass.render ++ lnInst ++ "." ++ cbName.render)

end Oscd

namespace Oscd

/-! The edit primitives of `@openscd/open-scd-core` that the plugin emits:
`Remove { node }` and `Insert { parent, node, reference }`, where
`reference` is the existing child of `parent` before which `node` must
land (`none` appends at the end). -/

/-- One edit primitive of a batch. -/
inductive Edit where
  | remove (node : Nat)
  | insert (parent : Nat) (node : Nat) (reference : Option Nat)
deriving Repr, DecidableEq

/-- First strict descendant of `scope` satisfying `p`
(`scope.querySelector`), in document order. -/
def qsel (d : Dom) (scope : Nat) (p : Nat → Bool) : Option Nat :=
  (strictDesc d scope).find? p

/-- First element of the whole document satisfying `p`
(`doc.querySelector`). -/
def qselDoc (d : Dom) (p : Nat → Bool) : Option Nat :=
  (descList d d.rootId).find? p

/-- Predicate for the tag-and-single-attribute CSS selectors the source
uses, e.g. `LN[lnClass="LGOS"]`. -/
def tagAttrIs (d : Dom) (tag a v : Nat → String) (n : Nat) : Bool :=
  tagOf d n = tag n && attrOf d n (a n) = some (v n)

/-- Matcher for `Tag[attr="v"]` selectors. -/
def matchTagAttr (d : Dom) (tag a v : String) (n : Nat) : Bool :=
  tagOf d n = tag && attrOf d n a = some v

/-- Whether the parent of `n` matches `p` (the `A > B` child combinator:
`n` matches `B` and its parent matches `A`). -/
def parentMatch (d : Dom) (p : Nat → Bool) (n : Nat) : Bool :=
  match parentOf d n with
  | none => false
  | some q => p q

/-- The supervision logical-node class for a control-block tag name:
`LGOS` for `GSEControl`, otherwise `LSVS`. -/
def supervisionTypeFor (cbTagName : String) : String :=
  if cbTagName = "GSEControl" then "LGOS" else "LSVS"

/-- The supervision data-object name for a supervision class: `GoCBRef`
for `LGOS`, otherwise `SvCBRef`. -/
def supervisionNameFor (supervisionType : String) : String :=
  if supervisionType = "LGOS" then "GoCBRef" else "SvCBRef"

/-- Matcher for the chain
`LN[lnClass=st] > DOI[name=sn] > DAI[name="setSrcRef"] > Val` (and its
`LN0` alternative) applied to a candidate `Val` element. -/
def isSupervisionVal (d : Dom) (st sn : String) (v : Nat) : Bool :=
  tagOf d v = "Val" &&
  parentMatch d (fun dai =>
    matchTagAttr d "DAI" "name" "setSrcRef" dai &&
    parentMatch d (fun doi =>
      matchTagAttr d "DOI" "name" sn doi &&
      parentMatch d (fun ln =>
        (tagOf d ln = "LN" || tagOf d ln = "LN0") &&
        attrOf d ln "lnClass" = some st) doi) dai) v

/-- All `Val` elements inside supervision logical nodes of the subscriber
IED for a control-block tag name (`getSupervisionCbRefs`), in document
order. -/
def getSupervisionCbRefs (d : Dom) (ied : Nat) (cbTagName : String) :
    List Nat :=
  let st := supervisionTypeFor cbTagName
  let sn := supervisionNameFor st
  (strictDesc d ied).filter (isSupervisionVal d st sn)

/-- JavaScript strict equality between a `Val` element's `textContent` and
`controlBlockReference(cb)` (a string or `null`; `null` equals no
string). -/
def textMatchesRef (d : Dom) (v : Nat) (cb : Nat) : Bool :=
  match controlBlockReference d (some cb) with
  | none => false
  | some s => textOf d v = s

/-- Batch removing the supervision record of a control block on a
subscriber IED (`removeSubscriptionSupervision`): empty when an argument is
absent, when no supervision `Val` carries the control block's reference
string, or when that `Val` has no enclosing logical node with a parent;
otherwise a single `Remove` of the whole logical node when it carries the
OpenSCD-created marker, of the enclosing `DOI` otherwise.  (The source's
`valElement.closest('DOI')!` assertion cannot fire: the matched `Val` sits
below a `DAI` below a `DOI`; the unreachable branch returns the empty
batch.) -/
def removeSubscriptionSupervision (d : Dom)
    (controlBlock subscriberIED : Option Nat) : List Edit :=
  match controlBlock, subscriberIED with
  | some cb, some ied =>
      match (getSupervisionCbRefs d ied (tagOf d cb)).find?
          (fun v => textMatchesRef d v cb) with
      | none => []
      | some v =>
          match closestTag d ["LN0", "LN"] v with
          | none => []
          | some ln =>
              match parentOf d ln with
              | none => []
              | some _ =>
                  let isOpenScdCreated := qsel d ln
                    (matchTagAttr d "Private" "type" "OpenSCD.create")
                  if isOpenScdCreated.isSome then [.remove ln]
                  else
                    match closestTag d ["DOI"] v with
                    | some doi => [.remove doi]
                    | none => []
  | _, _ => []

/-- JavaScript `parseInt(s, 10)`: skip leading whitespace, an optional
sign, then the longest digit run; `none` models `NaN`. -/
def parseIntJs (s : String) : Option Int :=
  let cs := s.toList.dropWhile
    (fun c => c = ' ' || c = '\t' || c = '\n' || c = '\r')
  let signedTail : Bool × List Char :=
    match cs with
    | '-' :: t => (true, t)
    | '+' :: t => (false, t)
    | t => (false, t)
  let digits := signedTail.2.takeWhile Char.isDigit
  if digits.isEmpty then none
  else
    let v : Nat := digits.foldl (fun a c => a * 10 + (c.toNat - 48)) 0
    some (if signedTail.1 then -(v : Int) else (v : Int))

/-- Declared supervision capacity of a subscriber IED for a control-block
tag name (`maxSupervisions`): the `maxGo` / `maxSv` attribute of
`Services > SupSubscription` parsed as an integer, with absence or a parse
failure giving `0`. -/
def maxSupervisions (d : Dom) (subscriberIED : Nat)
    (controlBlockType : String) : Int :=
  let maxAttr := if controlBlockType = "GSEControl" then "maxGo" else "maxSv"
  let supSub := qsel d subscriberIED (fun n =>
    tagOf d n = "SupSubscription" &&
    parentMatch d (fun q => tagOf d q = "Services") n)
  let raw := (supSub.bind (fun n => attrOf d n maxAttr)).getD "0"
  (parseIntJs raw).getD 0

/-- Number of supervision `Val` elements with non-empty text on the
subscriber IED for the control block's tag name
(`instantiatedSupervisionsCount`). -/
def instantiatedSupervisionsCount (d : Dom) (subscriberIED : Nat)
    (controlBlock : Nat) : Nat :=
  ((getSupervisionCbRefs d subscriberIED (tagOf d controlBlock)).filter
    (fun v => textOf d v ≠ "")).length

/-- First `LN[lnClass=t]` strict descendant of an element. -/
def qselLnClass (d : Dom) (scope : Nat) (t : String) : Option Nat :=
  qsel d scope (matchTagAttr d "LN" "lnClass" t)

/-- Whether supervision may be instantiated for a control block on a
subscriber IED (`isSupervisionAllowed`): the schema edition is not 2003,
the IED has an `LN` of the supervision class, no existing supervision `Val`
already equals the control block's reference string, and the count of
occupied supervision `Val`s is strictly below the declared capacity. -/
def isSupervisionAllowed (d : Dom) (controlBlock subscriberIED : Nat)
    (supervisionType : String) : Bool :=
  if getSclSchemaVersion d = "2003" then false
  else if (qselLnClass d subscriberIED supervisionType) = none then false
  else if ((getSupervisionCbRefs d subscriberIED
      (tagOf d controlBlock)).find?
        (fun v => textMatchesRef d v controlBlock)).isSome then false
  else if maxSupervisions d subscriberIED (tagOf d controlBlock) ≤
      (instantiatedSupervisionsCount d subscriberIED controlBlock : Int)
    then false
  else true

/-- First `DOI[name=sn] > DAI[name="setSrcRef"]` strict descendant of a
scope element. -/
def qselSetSrcRefDai (d : Dom) (scope : Nat) (sn : String) : Option Nat :=
  qsel d scope (fun n =>
    matchTagAttr d "DAI" "name" "setSrcRef" n &&
    parentMatch d (matchTagAttr d "DOI" "name" sn) n)

/-- Whether supervision values on the IED may be modified
(`isSupervisionModificationAllowed`): the first supervision `LN`'s
`setSrcRef` instance must carry `valKind` `RO`/`Conf` and
`valImport="true"`, or failing that the corresponding
`DataTypeTemplates` definition must.  Missing attributes interpolate into
the fallback selectors as the string `"null"` as in a template literal. -/
def isSupervisionModificationAllowed (d : Dom) (ied : Nat)
    (supervisionType : String) : Bool :=
  match qselLnClass d ied supervisionType with
  | none => false
  | some firstSupervisionLN =>
      let supervisionName :=
        if supervisionType = "LGOS" then "GoCBRef" else "SvCBRef"
      let dai := qselSetSrcRefDai d firstSupervisionLN supervisionName
      let instValKind := dai.bind (fun n => attrOf d n "valKind")
      let instValImport := dai.bind (fun n => attrOf d n "valImport")
      if (instValKind = some "RO" || instValKind = some "Conf") &&
          instValImport = some "true" then true
      else
        let lNodeType := (attrOf d firstSupervisionLN "lnType").getD "null"
        let lnClass := attrOf d firstSupervisionLN "lnClass"
        let lnClassStr := lnClass.getD "null"
        let doName := if lnClass = some "LGOS" then "GoCBRef" else "SvCBRef"
        let dObj := qselDoc d (fun n =>
          matchTagAttr d "DO" "name" doName n &&
          parentMatch d (fun q =>
            tagOf d q = "LNodeType" && attrOf d q "id" = some lNodeType &&
            attrOf d q "lnClass" = some lnClassStr &&
            parentMatch d (fun r => tagOf d r = "DataTypeTemplates") q) n)
        match dObj with
        | none => false
        | some dObjN =>
            let dORef := (attrOf d dObjN "type").getD "null"
            let daObj := qselDoc d (fun n =>
              matchTagAttr d "DA" "name" "setSrcRef" n &&
              parentMatch d (fun q =>
                tagOf d q = "DOType" && attrOf d q "id" = some dORef &&
                parentMatch d (fun r => tagOf d r = "DataTypeTemplates") q) n)
            match daObj with
            | none => false
            | some daN =>
                (attrOf d daN "valKind" = some "Conf" ||
                  attrOf d daN "valKind" = some "RO") &&
                attrOf d daN "valImport" = some "true"

end Oscd

namespace Oscd

/-! Mutation layer: element creation, attribute/text updates, deep cloning,
and the host's application of `Remove` / `Insert` primitives.  Our model
applies a batch the way `open-scd-core` does: each primitive in order,
`Insert` as `parent.insertBefore(node, reference)` (moving an attached
node), with an invalid reference or a hierarchy violation leaving the
document unchanged (the host wraps each primitive defensively). -/

/-- Allocate a fresh element with the given data (`createElementNS`,
and the node-allocation step of cloning). -/
def addNodeData (d : Dom) (data : NodeData) : Dom × Nat :=
  ({ d with nodes := d.nodes ++ [(d.nextId, data)], nextId := d.nextId + 1 },
    d.nextId)

/-- Allocate a fresh, empty, detached element (`createElementNS`). -/
def addNode (d : Dom) (tag : String) : Dom × Nat :=
  addNodeData d ⟨tag, [], ""⟩

/-- Update the stored data of a node. -/
def setData (d : Dom) (n : Nat) (f : NodeData → NodeData) : Dom :=
  { d with nodes := d.nodes.map (fun p => if p.1 = n then (p.1, f p.2) else p) }

/-- `Element.setAttribute`: replace an existing binding or append one. -/
def setAttr (d : Dom) (n : Nat) (a v : String) : Dom :=
  setData d n (fun nd =>
    if (nd.attrs.find? (fun p => p.1 = a)).isSome then
      { nd with attrs := nd.attrs.map (fun p => if p.1 = a then (a, v) else p) }
    else { nd with attrs := nd.attrs ++ [(a, v)] })

/-- Assignment to `textContent`. -/
def setText (d : Dom) (n : Nat) (s : String) : Dom :=
  setData d n (fun nd => { nd with text := s })

/-- Replace (or create) the child list of an element. -/
def setKids (d : Dom) (p : Nat) (l : List Nat) : Dom :=
  if (d.children.find? (fun q => q.1 = p)).isSome then
    { d with children := d.children.map (fun q => if q.1 = p then (p, l) else q) }
  else { d with children := d.children ++ [(p, l)] }

/-- Detach a node from whatever parent holds it
(`node.parentNode?.removeChild(node)`). -/
def detach (d : Dom) (n : Nat) : Dom :=
  { d with children := d.children.map (fun q => (q.1, q.2.filter (· ≠ n))) }

/-- Insert `n` immediately before the first occurrence of `r` (appending
when `r` does not occur; callers establish `r`'s membership first). -/
def insertBeforeRef : List Nat → Nat → Nat → List Nat
  | [], n, _ => [n]
  | x :: xs, n, r => if x = r then n :: x :: xs else x :: insertBeforeRef xs n r

/-- `parent.insertBefore(node, reference)` under the host's defensive
wrapper: a hierarchy violation (inserting a node into its own subtree) or a
reference that is not a child of `parent` leaves the document unchanged;
otherwise the node is detached from its previous position and placed before
the reference, or appended when the reference is absent. -/
def applyInsert (d : Dom) (parent node : Nat) (reference : Option Nat) :
    Dom :=
  if parent ∈ descAux d (fuelOf d) node then d
  else
    match reference with
    | none =>
        let d2 := detach d node
        setKids d2 parent (kidsOf d2 parent ++ [node])
    | some r =>
        if r ∈ kidsOf d parent then
          let d2 := detach d node
          setKids d2 parent (insertBeforeRef (kidsOf d2 parent) node r)
        else d

/-- Apply one edit primitive. -/
def applyEdit (d : Dom) : Edit → Dom
  | .remove n => detach d n
  | .insert p n r => applyInsert d p n r

/-- Apply a batch in order (the host dispatch of one edit event). -/
def applyEdits (d : Dom) (es : List Edit) : Dom :=
  es.foldl applyEdit d

/-- Deep clone of a forest of sibling subtrees with fresh ids
(`cloneNode(true)` / `importNode(n, true)`): allocate the node, clone its
child list, record the cloned child list, then clone the remaining
siblings — i.e. fresh ids are handed out in document order.  Reads
structure from the original document `src` while allocating into the
accumulator; the fuel bounds the recursion and exceeds the store size at
every use. -/
def cloneF (src : Dom) : Nat → List Nat → Dom → Dom × List Nat
  | 0, _, acc => (acc, [])
  | _ + 1, [], acc => (acc, [])
  | fuel + 1, n :: rest, acc =>
      let (acc2, c) := addNodeData acc (getData src n)
      let (acc3, ks) := cloneF src fuel (kidsOf src n) acc2
      let acc4 := setKids acc3 c ks
      let (acc5, cs) := cloneF src fuel rest acc4
      (acc5, c :: cs)

/-- Deep clone of a subtree into the same document; the clone's root id is
the document's `nextId` (the first id the traversal allocates). -/
def cloneSubtree (d : Dom) (n : Nat) : Dom × Nat :=
  ((cloneF d (fuelOf d) [n] d).1, d.nextId)

end Oscd

namespace Oscd

/-! The foundation identity/selector helpers are repository code that is
not under `src/` (only imported there), so they are modelled from the
spec. -/

/-- Modelled from the spec: the descriptor of one ancestor step of the
foundation `identity` function, "a deterministic string derived from the
path of ancestor kinds/names" — the node's kind together with its
distinguishing name-like attributes. -/
def identStep (d : Dom) (n : Nat) : String :=
  tagOf d n ++ "(" ++ (attrOf d n "name").getD "" ++ "," ++
    (attrOf d n "inst").getD "" ++ "," ++
    (attrOf d n "lnClass").getD "" ++ "," ++
    (attrOf d n "prefix").getD "" ++ ")"

/-- Ancestor chain of a node from its topmost ancestor down to itself
(fueled walk up the parent links). -/
def ancestorChain (d : Dom) : Nat → Nat → List Nat
  | 0, _ => []
  | fuel + 1, n =>
      match parentOf d n with
      | none => [n]
      | some p => ancestorChain d fuel p ++ [n]

/-- Modelled from the spec: the foundation `identity` function (not under
`src/`): a stable string derived from the path of ancestor kinds/names,
equal identities denoting the same logical position across a
remove-and-reinsert cycle. -/
def identity (d : Dom) (n : Nat) : String :=
  ">".intercalate ((ancestorChain d (fuelOf d) n).map (identStep d))

/-- Modelled from the spec: the foundation `selector` resolution (not under
`src/`): `doc.querySelector(selector(kind, ident))` maps a kind and an
identity string to the currently matching document element. -/
def selectorResolve (d : Dom) (kind ident : String) : Option Nat :=
  (descList d d.rootId).find? (fun n =>
    tagOf d n = kind && identity d n = ident)

/-- Modelled from the spec: the foundation
`minAvailableLogicalNodeInstance` (not under `src/`): the lowest instance
number not already used among the given logical-node instances, as a
string. -/
def minAvailableLogicalNodeInstance (d : Dom) (lns : List Nat) :
    Option String :=
  let used := lns.filterMap (fun n => (attrOf d n "inst").bind String.toNat?)
  ((List.range (lns.length + 2)).map (· + 1)).find? (fun k =>
      ¬ used.contains k) |>.map toString

/-- All `LN[lnClass=t]` strict descendants of a scope
(`querySelectorAll`). -/
def lnClassList (d : Dom) (scope : Nat) (t : String) : List Nat :=
  (strictDesc d scope).filter (matchTagAttr d "LN" "lnClass" t)

/-- A new supervision logical-node instance (`createNewSupervisionLnInst`):
a detached `LN` carrying the OpenSCD-created `Private` marker, the
supervision class, the `lnType` copied from an instantiated sibling (`none`
when no sibling exists to copy from) and the lowest free instance number.
The returned document carries the allocated nodes even on the `none`
paths (they stay detached), as in the DOM. -/
def createNewSupervisionLnInst (d : Dom) (controlBlock subscriberIED : Nat)
    (supervisionType : String) : Dom × Option Nat :=
  let a1 := addNode d "LN"
  let d1 := a1.1
  let newLN := a1.2
  let a2 := addNode d1 "Private"
  let d2 := a2.1
  let openScdTag := a2.2
  let d3 := setAttr d2 openScdTag "type" "OpenSCD.create"
  let d4 := setKids d3 newLN [openScdTag]
  let d5 := setAttr d4 newLN "lnClass" supervisionType
  let instantiatedSiblings :=
    ((getSupervisionCbRefs d5 subscriberIED (tagOf d5 controlBlock)).get? 0)
      |>.bind (closestTag d5 ["LN"])
  match instantiatedSiblings with
  | none => (d5, none)
  | some sib =>
      let d6 := setAttr d5 newLN "lnType" ((attrOf d5 sib "lnType").getD "")
      let inst := (attrOf d6 newLN "inst").getD ""
      if inst = "" then
        match minAvailableLogicalNodeInstance d6
            (lnClassList d6 subscriberIED supervisionType) with
        | none => (d6, none)
        | some instNumber => (setAttr d6 newLN "inst" instNumber, some newLN)
      else (d6, some newLN)

/-- First supervision `Val` below a logical node: the
`DOI[name=sn] > DAI[name="setSrcRef"] > Val` selector scoped to the
node. -/
def qselSupervisionVal (d : Dom) (ln : Nat) (sn : String) : Option Nat :=
  qsel d ln (fun n =>
    tagOf d n = "Val" &&
    parentMatch d (fun dai =>
      matchTagAttr d "DAI" "name" "setSrcRef" dai &&
      parentMatch d (matchTagAttr d "DOI" "name" sn) dai) n)

/-- An existing or new supervision logical node available for
instantiation (`findOrCreateAvailableLNInst`): the first supervision-class
`LN` whose supervision `Val` is absent or empty, else a freshly created
one. -/
def findOrCreateAvailableLNInst (d : Dom) (controlBlock subscriberIED : Nat)
    (supervisionType : String) : Dom × Option Nat :=
  let sn := if supervisionType = "LGOS" then "GoCBRef" else "SvCBRef"
  let availableLN := (lnClassList d subscriberIED supervisionType).find?
    (fun ln =>
      match qselSupervisionVal d ln sn with
      | none => true
      | some v => textOf d v = "")
  match availableLN with
  | some ln => (d, some ln)
  | none => createNewSupervisionLnInst d controlBlock subscriberIED
      supervisionType

/-- Whether an element is the last child of its parent (the CSS
`:last-child` pseudo-class over element children). -/
def isLastChild (d : Dom) (n : Nat) : Bool :=
  match parentOf d n with
  | none => false
  | some p => (kidsOf d p).getLast? = some n

/-- The `DOI` phase of `instantiateSubscriptionSupervision`: reuse the
existing supervision `DOI` below the available logical node, or allocate
one named after the supervision data object and append its `Insert`. -/
def superDoiStep (d1 : Dom) (availableLN : Nat) (sn : String)
    (edits0 : List Edit) : Dom × Nat × List Edit :=
  match qsel d1 availableLN (matchTagAttr d1 "DOI" "name" sn) with
  | some doi => (d1, doi, edits0)
  | none =>
      let da := (addNode d1 "DOI").1
      let doi := (addNode d1 "DOI").2
      let db := setAttr da doi "name" sn
      (db, doi, edits0 ++ [.insert availableLN doi none])

/-- The `DAI` phase of `instantiateSubscriptionSupervision`: reuse the
existing `setSrcRef` `DAI`, or allocate one (copying `valKind` and
`valImport` from the first instantiated supervision `DAI` of the device)
and append its `Insert` below the `DOI`. -/
def superDaiStep (d2 : Dom) (ied availableLN doiElement : Nat)
    (sn supervisionType : String) (prev : List Edit) :
    Dom × Nat × List Edit :=
  match qselSetSrcRefDai d2 availableLN sn with
  | some dai => (d2, dai, prev)
  | none =>
      let da := (addNode d2 "DAI").1
      let dai := (addNode d2 "DAI").2
      let srcValRef := qsel da ied (fun n =>
        matchTagAttr da "DAI" "name" "setSrcRef" n &&
        parentMatch da (fun doi =>
          matchTagAttr da "DOI" "name" sn doi &&
          parentMatch da
            (matchTagAttr da "LN" "lnClass" supervisionType)
            doi) n)
      let db := setAttr da dai "name" "setSrcRef"
      let dc :=
        match srcValRef.bind (fun s => attrOf db s "valKind") with
        | some vk => setAttr db dai "valKind" vk
        | none => db
      let dd :=
        match srcValRef.bind (fun s => attrOf dc s "valImport") with
        | some vi => setAttr dc dai "valImport" vi
        | none => dc
      (dd, dai, prev ++ [.insert doiElement dai none])

/-- The `Val` phase of `instantiateSubscriptionSupervision`: a `Remove` of
any pre-existing `Val` below the node, then an `Insert` of a freshly
allocated `Val` whose text is the control block's reference string (the
empty string when that reference is `null`). -/
def superValStep (d3 : Dom) (cb availableLN daiElement : Nat)
    (prev : List Edit) : Dom × List Edit :=
  let valRemoves : List Edit :=
    match qsel d3 availableLN (fun n => tagOf d3 n = "Val") with
    | some v => [.remove v]
    | none => []
  let d4 := (addNode d3 "Val").1
  let valNew := (addNode d3 "Val").2
  let d5 := setText d4 valNew
    ((controlBlockReference d4 (some cb)).getD "")
  (d5, prev ++ valRemoves ++ [.insert daiElement valNew none])

/-- Batch creating a supervision record for a control block on a
subscriber IED (`instantiateSubscriptionSupervision`): empty when an
argument is absent, supervision is not allowed, no logical node is
available, or modification is not allowed; otherwise, in order: an
`Insert` of the freshly created logical node (when one was created), an
`Insert` of a missing `DOI`, an `Insert` of a missing `DAI` (copying
`valKind`/`valImport` from the first existing instance), a `Remove` of any
pre-existing `Val` below the node, and an `Insert` of a new `Val` whose
text is the control block's reference string (the empty string when that
reference is `null`).  The returned document carries the allocated
detached nodes.  The `DOI`, `DAI` and `Val` phases of the source function
are the helpers above. -/
def instantiateSubscriptionSupervision (d : Dom)
    (controlBlock subscriberIED : Option Nat)
    (existingSupervision : Option Nat := none) : Dom × List Edit :=
  let supervisionType :=
    match controlBlock with
    | some cb => if tagOf d cb = "GSEControl" then "LGOS" else "LSVS"
    | none => "LSVS"
  match controlBlock, subscriberIED with
  | some cb, some ied =>
      if ¬ isSupervisionAllowed d cb ied supervisionType then (d, [])
      else
        let found : Dom × Option Nat :=
          match existingSupervision with
          | some e => (d, some e)
          | none => findOrCreateAvailableLNInst d cb ied supervisionType
        let d1 := found.1
        match found.2 with
        | none => (d1, [])
        | some availableLN =>
            if ¬ isSupervisionModificationAllowed d1 ied supervisionType then
              (d1, [])
            else
              let edits0 : List Edit :=
                if (parentOf d1 availableLN).isNone then
                  match (qselLnClass d1 ied supervisionType).bind
                      (parentOf d1) with
                  | some par =>
                      let lastLn := qsel d1 par (fun n =>
                        matchTagAttr d1 "LN" "lnClass" supervisionType n &&
                        isLastChild d1 n)
                      [.insert par availableLN
                        (lastLn.bind (nextElemSibling d1))]
                  | none => []
                else []
              let sn :=
                if supervisionType = "LGOS" then "GoCBRef" else "SvCBRef"
              let doiStep := superDoiStep d1 availableLN sn edits0
              let daiStep := superDaiStep doiStep.1 ied availableLN
                doiStep.2.1 sn supervisionType doiStep.2.2
              superValStep daiStep.1 cb availableLN daiStep.2.1 daiStep.2.2
  | _, _ => (d, [])

end Oscd

namespace Oscd

/-! The device-replacement engine (`replaceIeds` of the plugin class).
Its side effects are two dispatched edit batches per selected device; we
model each dispatch as synchronous application to the document (the host
applies an edit event in its listener before `dispatchEvent` returns), so
the second batch is computed against the already-swapped document, with
the original device detached — exactly as the source observes it.  A
JavaScript runtime error while building a batch (e.g. `undefined.forEach`
from a missing map entry or a member access on a `null` query result) is
modelled as an overall `none`; batches dispatched before the error are
then discarded by the model, which only claims about the presence of a
fault rely on. -/

/-- One captured wiring record (`storedInput`): the identity string of the
owning logical node and the id of the deep clone of the captured
section. -/
structure StoredInput where
  id : String
  input : Nat
deriving Repr, DecidableEq

/-- The capture maps (`Map<string, [storedInput]>`), keyed by the possibly
absent device name (`getAttribute('name')!`). -/
abbrev CaptureMap : Type := List (Option String × List StoredInput)

/-- Append a record under a key (`has`/`get`-`push`/`set` in the
source). -/
def mapAppend (m : CaptureMap) (k : Option String) (v : StoredInput) :
    CaptureMap :=
  if (m.find? (fun p => p.1 = k)).isSome then
    m.map (fun p => if p.1 = k then (p.1, p.2 ++ [v]) else p)
  else m ++ [(k, [v])]

/-- Lookup of a key (`get`): `none` models `undefined`. -/
def mapGet (m : CaptureMap) (k : Option String) :
    Option (List StoredInput) :=
  (m.find? (fun p => p.1 = k)).map Prod.snd

/-- The `Inputs` sections captured from a device: all
`:scope LN > Inputs, :scope LN0 > Inputs` matches in document order. -/
def inputsSectionsOf (d : Dom) (ied : Nat) : List Nat :=
  (strictDesc d ied).filter (fun n =>
    tagOf d n = "Inputs" &&
    parentMatch d (fun q => tagOf d q = "LN" || tagOf d q = "LN0") n)

/-- The outbound message definitions captured from a device: all
`:scope LN0 > GSEControl` matches in document order. -/
def gseSectionsOf (d : Dom) (ied : Nat) : List Nat :=
  (strictDesc d ied).filter (fun n =>
    tagOf d n = "GSEControl" &&
    parentMatch d (fun q => tagOf d q = "LN0") n)

/-- Pass 1 of `replaceIeds`: for each selected device, record
`(identity of owning logical node, deep clone)` for every `Inputs` section
and every `LN0 > GSEControl` definition, keyed by device name. -/
def captureOne (dc : Dom) (inputsSections gseControlSections : CaptureMap)
    (ident : String) : Option (Dom × CaptureMap × CaptureMap) := do
  let currentIed ← selectorResolve dc "IED" ident
  let currentIedName := attrOf dc currentIed "name"
  let step := fun (st : Dom × CaptureMap) (sec : Nat) =>
    let (dd, m) := st
    let owner := match parentOf dd sec with
      | some p => identity dd p
      | none => ""
    let (dd2, cloneId) := cloneSubtree dd sec
    (dd2, mapAppend m currentIedName ⟨owner, cloneId⟩)
  let afterInputs := (inputsSectionsOf dc currentIed).foldl step
    (dc, inputsSections)
  let afterGse := (gseSectionsOf afterInputs.1 currentIed).foldl
    (fun (st : Dom × CaptureMap) sec =>
      let (dd, m) := st
      let owner := match parentOf dd sec with
        | some p => identity dd p
        | none => ""
      let (dd2, cloneId) := cloneSubtree dd sec
      (dd2, mapAppend m currentIedName ⟨owner, cloneId⟩))
    (afterInputs.1, gseControlSections)
  pure (afterGse.1, afterInputs.2, afterGse.2)

/-- The swap batch of the engine for one selected device: deep-clone the
template, set the clone's `name` attribute to the selected device's name
(`getAttribute('name')!`, coerced as `setAttribute` coerces `null`), and
emit `Remove` of the device followed by `Insert` of the clone under the
document element with the device's previous element sibling as the
insertion reference.  Returns the document with the allocated clone, the
clone's id, and the batch. -/
def swapBatch (dc : Dom) (tmpl currentIed : Nat) : Dom × Nat × List Edit :=
  let (dc1, newIed) := cloneSubtree dc tmpl
  let dc2 := setAttr dc1 newIed "name"
    ((attrOf dc currentIed "name").getD "null")
  (dc2, newIed,
    [.remove currentIed,
     .insert dc2.rootId newIed (prevElemSibling dc2 currentIed)])

/-- Pass 2 of `replaceIeds` for one selected device: build and dispatch
the swap batch (remove the device, insert the renamed template clone under
the document element before the device's previous element sibling), then
build and dispatch the rewire batch (replace `Inputs` sections on
identity-resolved logical nodes; remove the — by now detached — original
device's `GSEControl` elements; insert the captured definitions on the
identity-resolved `LN0` with the detached tree's sibling as reference).
`none` models a thrown `TypeError`. -/
def swapOne (dc : Dom) (tmpl : Nat)
    (inputsSections gseControlSections : CaptureMap) (ident : String) :
    Option (Dom × List Edit × List Edit) := do
  let currentIed ← selectorResolve dc "IED" ident
  let currentIedName := attrOf dc currentIed "name"
  let swapped := swapBatch dc tmpl currentIed
  let dc2 := swapped.1
  let editActions := swapped.2.2
  let dc3 := applyEdits dc2 editActions
  let inputsList ← mapGet inputsSections currentIedName
  let inputActions1 ← inputsList.foldlM
    (fun (lst : List Edit) (si : StoredInput) => do
      let lN := match selectorResolve dc3 "LN" si.id with
        | some n => some n
        | none => selectorResolve dc3 "LN0" si.id
      match lN with
      | none => pure lst
      | some ln =>
          let inputsChild ← qsel dc3 ln (fun n => tagOf dc3 n = "Inputs")
          pure (lst ++ [.remove inputsChild,
            .insert ln si.input (nextElemSibling dc3 inputsChild)]))
    ([] : List Edit)
  let gseControls := (strictDesc dc3 currentIed).filter
    (fun n => tagOf dc3 n = "GSEControl")
  let gseRemoves : List Edit := gseControls.map .remove
  let lastGse := gseControls.getLast?
  let gseList ← mapGet gseControlSections currentIedName
  let gseInserts ← gseList.foldlM
    (fun (lst : List Edit) (si : StoredInput) => do
      let lg ← lastGse
      let reference := nextElemSibling dc3 lg
      match selectorResolve dc3 "LN0" si.id with
      | some par => pure (lst ++ [.insert par si.input reference])
      | none => pure lst)
    ([] : List Edit)
  let inputActions := inputActions1 ++ gseRemoves ++ gseInserts
  let dc4 := applyEdits dc3 inputActions
  pure (dc4, editActions, inputActions)

/-- The `replaceIeds` operation of the plugin (the two-pass engine of the
current plugin class): capture wiring from every selected device, then per
device dispatch the swap batch and the rewire batch.  With no selection or
no chosen template nothing is dispatched; a runtime fault anywhere yields
`none`. -/
def replaceIeds (d : Dom) (selectedIds : List String)
    (selectedIed : Option Nat) : Option (Dom × List (List Edit)) :=
  match selectedIed with
  | none => some (d, [])
  | some tmpl =>
      if selectedIds.isEmpty then some (d, [])
      else do
        let captured ← selectedIds.foldlM
          (fun (st : Dom × CaptureMap × CaptureMap) ident =>
            captureOne st.1 st.2.1 st.2.2 ident)
          (d, ([] : CaptureMap), ([] : CaptureMap))
        let final ← selectedIds.foldlM
          (fun (st : Dom × List (List Edit)) ident => do
            let (dc, batches) := st
            let (dc4, batch1, batch2) ← swapOne dc tmpl captured.2.1
              captured.2.2 ident
            pure (dc4, batches ++ [batch1, batch2]))
          (captured.1, ([] : List (List Edit)))
        pure final

end Oscd

namespace Oscd

/-! Basic facts about the store operations and traversals, shared by the
claim theorems. -/

/-- A `find?` keyed on the first component commutes with a map that
preserves first components. -/
theorem find?_map_fst {β : Type} (f : Nat × β → Nat × β)
    (hf : ∀ x, (f x).1 = x.1) (l : List (Nat × β)) (m : Nat) :
    (l.map f).find? (fun p => p.1 = m) =
      (l.find? (fun p => p.1 = m)).map f := by
  induction l with
  | nil => rfl
  | cons x xs ih =>
      by_cases hx : x.1 = m
      · simp [List.find?, hf, hx]
      · simp [List.find?, hf, hx, ih]

/-- The child store after `detach`. -/
theorem detach_children (d : Dom) (n : Nat) :
    (detach d n).children =
      d.children.map (fun q => (q.1, q.2.filter (· ≠ n))) := rfl

/-- Looking up a child list after `detach` filters out the detached
node. -/
theorem detach_kidsOf (d : Dom) (n m : Nat) :
    kidsOf (detach d n) m = (kidsOf d m).filter (· ≠ n) := by
  have h := find?_map_fst (fun q : Nat × List Nat =>
    (q.1, q.2.filter (· ≠ n))) (fun x => rfl) d.children m
  unfold kidsOf
  rw [detach_children, h]
  cases d.children.find? (fun p => p.1 = m) <;> simp

/-- The child store after `setKids`. -/
theorem setKids_children (d : Dom) (p : Nat) (l : List Nat) :
    (setKids d p l).children =
      if (d.children.find? (fun q => q.1 = p)).isSome then
        d.children.map (fun q => if q.1 = p then (p, l) else q)
      else d.children ++ [(p, l)] := by
  unfold setKids
  split <;> rfl

/-- Looking up a child list after `setKids`. -/
theorem setKids_kidsOf (d : Dom) (p : Nat) (l : List Nat) (m : Nat) :
    kidsOf (setKids d p l) m = if m = p then l else kidsOf d m := by
  unfold kidsOf
  rw [setKids_children]
  by_cases hpres : (d.children.find? (fun q => q.1 = p)).isSome
  · rw [if_pos hpres,
      find?_map_fst _ (by intro x; by_cases h : x.1 = p <;> simp [h])]
    by_cases hmp : m = p
    · subst hmp
      obtain ⟨q, hq⟩ := Option.isSome_iff_exists.mp hpres
      have hq1 : q.1 = m := by simpa using List.find?_some hq
      simp [hq, hq1]
    · cases hfind : d.children.find? (fun q => q.1 = m) with
      | none => simp [hmp]
      | some q =>
          have hq1 : q.1 = m := by simpa using List.find?_some hfind
          have hnp : ¬ q.1 = p := by rw [hq1]; exact hmp
          simp [hnp, hmp]
  · rw [if_neg hpres, List.find?_append]
    by_cases hmp : m = p
    · subst hmp
      have hnone : d.children.find? (fun q => q.1 = m) = none := by
        cases h : d.children.find? (fun q => q.1 = m) with
        | none => rfl
        | some q => exact absurd (by simp [h]) hpres
      simp [hnone, List.find?]
    · cases hfind : d.children.find? (fun q => q.1 = m) with
      | none => simp [List.find?, Ne.symm hmp, hmp]
      | some q => simp [hmp]

/-- `setKids` never changes the node store. -/
theorem setKids_nodes (d : Dom) (p : Nat) (l : List Nat) :
    (setKids d p l).nodes = d.nodes := by
  unfold setKids
  split <;> rfl

/-- `detach` never changes the node store. -/
theorem detach_nodes (d : Dom) (n : Nat) : (detach d n).nodes = d.nodes :=
  rfl

/-- `applyInsert` never changes the node store. -/
theorem applyInsert_nodes (d : Dom) (p n : Nat) (r : Option Nat) :
    (applyInsert d p n r).nodes = d.nodes := by
  unfold applyInsert
  split
  · rfl
  · split
    · simp [setKids_nodes, detach_nodes]
    · split
      · simp [setKids_nodes, detach_nodes]
      · rfl

/-- `applyEdit` never changes the node store. -/
theorem applyEdit_nodes (d : Dom) (e : Edit) :
    (applyEdit d e).nodes = d.nodes := by
  cases e with
  | remove n => rfl
  | insert p n r => exact applyInsert_nodes d p n r

/-- Applying a batch never changes the node store. -/
theorem applyEdits_nodes (d : Dom) (es : List Edit) :
    (applyEdits d es).nodes = d.nodes := by
  induction es generalizing d with
  | nil => rfl
  | cons e es ih =>
      unfold applyEdits at ih ⊢
      simp only [List.foldl_cons]
      rw [ih, applyEdit_nodes]

/-- Element data is unchanged by applying a batch. -/
theorem applyEdits_getData (d : Dom) (es : List Edit) (n : Nat) :
    getData (applyEdits d es) n = getData d n := by
  unfold getData
  rw [applyEdits_nodes]

/-- Attributes are unchanged by applying a batch. -/
theorem applyEdits_attrOf (d : Dom) (es : List Edit) (n : Nat) (a : String) :
    attrOf (applyEdits d es) n a = attrOf d n a := by
  unfold attrOf
  rw [applyEdits_getData]

end Oscd

namespace Oscd

/-- Well-formed parent links: every child listed in the store has that
entry's key as its (unique) parent. -/
def Dom.wfParents (d : Dom) : Prop :=
  ∀ p ∈ d.children, ∀ c ∈ p.2, parentOf d c = some p.1

instance (d : Dom) : Decidable (Dom.wfParents d) := by
  unfold Dom.wfParents
  infer_instance

/-- A node is in its own fueled subtree. -/
theorem mem_descAux_self (d : Dom) (f n : Nat) (hf : 0 < f) :
    n ∈ descAux d f n := by
  cases f with
  | zero => omega
  | succ m => simp [descAux]

/-- Subtree membership through a child. -/
theorem mem_descAux_of_kid (d : Dom) {f n k x : Nat}
    (hk : k ∈ kidsOf d n) (hx : x ∈ descAux d f k) :
    x ∈ descAux d (f + 1) n := by
  simp only [descAux, List.mem_cons, List.mem_flatMap]
  exact Or.inr ⟨k, hk, hx⟩

/-- Every member of a fueled subtree is the root or a child of another
member. -/
theorem mem_descAux_elim (d : Dom) {f n x : Nat}
    (hx : x ∈ descAux d f n) :
    x = n ∨ ∃ w, w ∈ descAux d f n ∧ x ∈ kidsOf d w := by
  induction f generalizing n with
  | zero => simp [descAux] at hx
  | succ m ih =>
      simp only [descAux, List.mem_cons, List.mem_flatMap] at hx
      rcases hx with h | ⟨k, hk, hxk⟩
      · exact Or.inl h
      · rcases ih hxk with h | ⟨w, hw, hxw⟩
        · subst h
          exact Or.inr ⟨n, mem_descAux_self d _ n (Nat.succ_pos m), hk⟩
        · exact Or.inr ⟨w, mem_descAux_of_kid d hk hw, hxw⟩

/-- Membership in the strict-descendant list unfolds through a child. -/
theorem mem_strictDesc_iff (d : Dom) (a x : Nat) :
    x ∈ strictDesc d a ↔ ∃ k ∈ kidsOf d a, x ∈ descAux d (fuelOf d) k := by
  simp [strictDesc, List.mem_flatMap]

/-- A listed child comes from a store entry. -/
theorem kid_mem_children (d : Dom) {a x : Nat} (hx : x ∈ kidsOf d a) :
    ∃ l, (a, l) ∈ d.children ∧ x ∈ l := by
  unfold kidsOf at hx
  cases hfind : d.children.find? (fun p => p.1 = a) with
  | none => simp [hfind] at hx
  | some q =>
      have hq1 : q.1 = a := by simpa using List.find?_some hfind
      have hmem := List.mem_of_find?_eq_some hfind
      refine ⟨q.2, ?_, ?_⟩
      · rw [← hq1]; exact hmem
      · simpa [hfind] using hx

/-- Under well-formed parent links, a listed child's parent is the
holder. -/
theorem parent_eq_of_kid (d : Dom) (hw : Dom.wfParents d) {a x : Nat}
    (hx : x ∈ kidsOf d a) : parentOf d x = some a := by
  obtain ⟨l, hl, hxl⟩ := kid_mem_children d hx
  exact hw (a, l) hl x hxl

/-- Every strict descendant has a parent. -/
theorem parent_isSome_of_strict (d : Dom) (hw : Dom.wfParents d)
    {a x : Nat} (hx : x ∈ strictDesc d a) : (parentOf d x).isSome := by
  rcases (mem_strictDesc_iff d a x).mp hx with ⟨k, hk, hxk⟩
  rcases mem_descAux_elim d hxk with h | ⟨w, _, hxw⟩
  · subst h
    rw [parent_eq_of_kid d hw hk]
    rfl
  · rw [parent_eq_of_kid d hw hxw]
    rfl

/-- The parent of a strict descendant is the scope or itself a strict
descendant. -/
theorem parent_of_strict (d : Dom) (hw : Dom.wfParents d) {a x u : Nat}
    (hx : x ∈ strictDesc d a) (hu : parentOf d x = some u) :
    u = a ∨ u ∈ strictDesc d a := by
  rcases (mem_strictDesc_iff d a x).mp hx with ⟨k, hk, hxk⟩
  rcases mem_descAux_elim d hxk with h | ⟨w, hw2, hxw⟩
  · subst h
    rw [parent_eq_of_kid d hw hk] at hu
    exact Or.inl (by simpa using hu.symm)
  · rw [parent_eq_of_kid d hw hxw] at hu
    have : w = u := by simpa using hu
    subst this
    exact Or.inr ((mem_strictDesc_iff d a w).mpr ⟨k, hk, hw2⟩)

/-- A node with a non-empty tag has a store entry. -/
theorem mem_nodes_of_tag (d : Dom) {n : Nat} (h : tagOf d n ≠ "") :
    n ∈ d.nodes.map Prod.fst := by
  unfold tagOf getData at h
  cases hfind : d.nodes.find? (fun p => p.1 = n) with
  | none => simp [hfind] at h
  | some q =>
      have hq1 : q.1 = n := by simpa using List.find?_some hfind
      have hmem := List.mem_of_find?_eq_some hfind
      rw [← hq1]
      exact List.mem_map_of_mem Prod.fst hmem

/-- Four distinct nodes with non-empty tags force at least four store
entries, hence traversal fuel of at least five. -/
theorem fuel_ge_of_four (d : Dom) {a b c e : Nat}
    (hnd : ([a, b, c, e] : List Nat).Nodup)
    (ha : tagOf d a ≠ "") (hb : tagOf d b ≠ "") (hc : tagOf d c ≠ "")
    (he : tagOf d e ≠ "") : 4 ≤ d.nodes.length := by
  have hsub : ([a, b, c, e] : List Nat) ⊆ d.nodes.map Prod.fst := by
    intro x hx
    simp only [List.mem_cons, List.not_mem_nil, or_false] at hx
    rcases hx with rfl | rfl | rfl | rfl
    · exact mem_nodes_of_tag d ha
    · exact mem_nodes_of_tag d hb
    · exact mem_nodes_of_tag d hc
    · exact mem_nodes_of_tag d he
  have := (hnd.subperm hsub).length_le
  simpa using this

/-- A `closest` walk that does not match steps to the parent. -/
theorem closestAux_step (d : Dom) (p : Nat → Bool) {n q : Nat} (f : Nat)
    (hp : p n = false) (hpar : parentOf d n = some q) :
    closestAux d p (f + 1) n = closestAux d p f q := by
  simp [closestAux, hp, hpar]

/-- A `closest` walk that matches stops. -/
theorem closestAux_here (d : Dom) (p : Nat → Bool) {n : Nat} (f : Nat)
    (hp : p n = true) : closestAux d p (f + 1) n = some n := by
  simp [closestAux, hp]

end Oscd

namespace Oscd

/-! Concrete SCL documents used by counterexamples and witnesses. -/

/-- A document whose only interesting element is a `GSEControl` with a
`name` but with no `IED`, `LDevice` or logical-node ancestor. -/
def docOrphanCb : Dom :=
  ⟨[(0, ⟨"SCL", [], ""⟩), (1, ⟨"GSEControl", [("name", "gse1")], ""⟩)],
   [(0, [1])], 0, 2⟩

/-- A document with an `ExtRef` carrying all six identifying attributes
with empty values. -/
def docEmptyAttrs : Dom :=
  ⟨[(0, ⟨"SCL", [], ""⟩),
    (1, ⟨"ExtRef", [("iedName", ""), ("ldInst", ""), ("lnClass", ""),
      ("lnInst", ""), ("doName", ""), ("daName", "")], ""⟩)],
   [(0, [1])], 0, 2⟩

/-- A 2007B4 document with a publisher IED `PUB` owning control block
`gse1` (node 4) and a subscriber IED `SUB` (node 5) with supervision
capacity 2 and two occupied `LGOS` supervision slots. -/
def docAtCapacity : Dom :=
  ⟨[(0, ⟨"SCL", [("version", "2007"), ("revision", "B"), ("release", "4")], ""⟩),
    (1, ⟨"IED", [("name", "PUB")], ""⟩),
    (2, ⟨"LDevice", [("inst", "ld1")], ""⟩),
    (3, ⟨"LN0", [("lnClass", "LLN0"), ("inst", "")], ""⟩),
    (4, ⟨"GSEControl", [("name", "gse1")], ""⟩),
    (5, ⟨"IED", [("name", "SUB")], ""⟩),
    (6, ⟨"Services", [], ""⟩),
    (7, ⟨"SupSubscription", [("maxGo", "2")], ""⟩),
    (8, ⟨"LDevice", [("inst", "sd")], ""⟩),
    (9, ⟨"LN", [("lnClass", "LGOS"), ("inst", "1")], ""⟩),
    (10, ⟨"DOI", [("name", "GoCBRef")], ""⟩),
    (11, ⟨"DAI", [("name", "setSrcRef")], ""⟩),
    (12, ⟨"Val", [], "X1"⟩),
    (13, ⟨"LN", [("lnClass", "LGOS"), ("inst", "2")], ""⟩),
    (14, ⟨"DOI", [("name", "GoCBRef")], ""⟩),
    (15, ⟨"DAI", [("name", "setSrcRef")], ""⟩),
    (16, ⟨"Val", [], "X2"⟩)],
   [(0, [1, 5]), (1, [2]), (2, [3]), (3, [4]), (5, [6, 8]), (6, [7]),
    (8, [9, 13]), (9, [10]), (10, [11]), (11, [12]), (13, [14]), (14, [15]),
    (15, [16])], 0, 17⟩

/-- `docAtCapacity` with the second supervision slot's value text
cleared. -/
def docOneCleared : Dom :=
  ⟨docAtCapacity.nodes.map (fun p => if p.1 = 16 then (16, ⟨"Val", [], ""⟩) else p),
   docAtCapacity.children, 0, 17⟩

/-! Theorems for the claims about the subscription matcher. -/

/-- Claim C3 (amended): `isSubscribed` returns true exactly when all six
identifying attributes are present on the reference element; the attribute
values — in particular, emptiness — are not examined. -/
theorem isSubscribed_iff_six_present (d : Dom) (r : Nat) :
    isSubscribed d r = true ↔
      ((attrOf d r "iedName").isSome ∧ (attrOf d r "ldInst").isSome ∧
       (attrOf d r "lnClass").isSome ∧ (attrOf d r "lnInst").isSome ∧
       (attrOf d r "doName").isSome ∧ (attrOf d r "daName").isSome) := by
  simp [isSubscribed, hasAttr, Bool.and_eq_true, and_assoc]

/-- Claim C3, counterexample to the claim as stated: an `ExtRef` whose six
identifying attributes are all present but empty is reported subscribed,
although the claim requires all six to be non-empty. -/
theorem isSubscribed_empty_attrs_cex :
    isSubscribed docEmptyAttrs 1 = true ∧
    attrOf docEmptyAttrs 1 "iedName" = some "" ∧
    attrOf docEmptyAttrs 1 "ldInst" = some "" ∧
    attrOf docEmptyAttrs 1 "lnClass" = some "" ∧
    attrOf docEmptyAttrs 1 "lnInst" = some "" ∧
    attrOf docEmptyAttrs 1 "doName" = some "" ∧
    attrOf docEmptyAttrs 1 "daName" = some "" := by
  decide

/-- `controlBlockReference` on a present control block, as a single
conditional over its four guarded components. -/
theorem controlBlockReference_eq (d : Dom) (cb : Nat) :
    controlBlockReference d (some cb) =
      if (cbrCbName d cb).falsy && (cbrIedName d cb).falsy &&
          (cbrLdInst d cb).falsy && (cbrLnClass d cb).falsy then none
      else
        some ((cbrIedName d cb).render ++ (cbrLdInst d cb).render ++ "/" ++
          attrOrEmpty d (closestTag d ["LN", "LN0"] cb) "prefix" ++
          (cbrLnClass d cb).render ++
          attrOrEmpty d (closestTag d ["LN", "LN0"] cb) "inst" ++ "." ++
          (cbrCbName d cb).render) := rfl

/-- Claim C2 (amended): `controlBlockReference` is `null` for an absent
control block, and for a present one it is `null` exactly when all four
guarded structural components (control-block name, enclosing IED name,
enclosing LDevice instance, logical-node class) are absent or empty;
otherwise — even when some but not all components are unresolved — it
returns the template string, rendering missing components as `null` /
`undefined`. -/
theorem controlBlockReference_characterization (d : Dom) (cb : Nat) :
    (controlBlockReference d none = none) ∧
    (controlBlockReference d (some cb) = none ↔
      ((cbrCbName d cb).falsy = true ∧ (cbrIedName d cb).falsy = true ∧
       (cbrLdInst d cb).falsy = true ∧ (cbrLnClass d cb).falsy = true)) ∧
    (¬ ((cbrCbName d cb).falsy = true ∧ (cbrIedName d cb).falsy = true ∧
        (cbrLdInst d cb).falsy = true ∧ (cbrLnClass d cb).falsy = true) →
      controlBlockReference d (some cb) =
        some ((cbrIedName d cb).render ++ (cbrLdInst d cb).render ++ "/" ++
          attrOrEmpty d (closestTag d ["LN", "LN0"] cb) "prefix" ++
          (cbrLnClass d cb).render ++
          attrOrEmpty d (closestTag d ["LN", "LN0"] cb) "inst" ++ "." ++
          (cbrCbName d cb).render)) := by
  refine ⟨rfl, ?_, ?_⟩
  · rw [controlBlockReference_eq]
    cases hb : ((cbrCbName d cb).falsy && (cbrIedName d cb).falsy &&
        (cbrLdInst d cb).falsy && (cbrLnClass d cb).falsy) with
    | true =>
        simp only [Bool.and_eq_true] at hb
        simp [hb.1.1.1, hb.1.1.2, hb.1.2, hb.2]
    | false =>
        simp only [hb, Bool.false_eq_true, if_false]
        constructor
        · intro hx
          simp at hx
        · rintro ⟨h1, h2, h3, h4⟩
          rw [h1, h2, h3, h4] at hb
          simp at hb
  · intro h
    rw [controlBlockReference_eq]
    cases hb : ((cbrCbName d cb).falsy && (cbrIedName d cb).falsy &&
        (cbrLdInst d cb).falsy && (cbrLnClass d cb).falsy) with
    | true =>
        exfalso
        simp only [Bool.and_eq_true] at hb
        exact h ⟨hb.1.1.1, hb.1.1.2, hb.1.2, hb.2⟩
    | false => simp [hb]

/-- Claim C2, witness: on a control block with all components resolved the
characterization yields the fully-qualified reference string. -/
theorem controlBlockReference_characterization_witness :
    ¬ ((cbrCbName docAtCapacity 4).falsy = true ∧
       (cbrIedName docAtCapacity 4).falsy = true ∧
       (cbrLdInst docAtCapacity 4).falsy = true ∧
       (cbrLnClass docAtCapacity 4).falsy = true) ∧
    controlBlockReference docAtCapacity (some 4) = some "PUBld1/LLN0.gse1" := by
  refine ⟨by decide, ?_⟩
  have h := (controlBlockReference_characterization docAtCapacity 4).2.2
    (by decide)
  rw [h]
  decide

/-- Claim C2, counterexample to the claim as stated: a control block with a
resolvable name but unresolvable IED, LDevice and logical-node components
does not yield an absent reference — it yields a string with `undefined`
rendered into it. -/
theorem controlBlockReference_orphan_cex :
    controlBlockReference docOrphanCb (some 1) =
      some "undefinedundefined/undefined.gse1" ∧
    cbrIedName docOrphanCb 1 = .undef ∧
    cbrLdInst docOrphanCb 1 = .undef ∧
    cbrLnClass docOrphanCb 1 = .undef ∧
    cbrCbName docOrphanCb 1 = .str "gse1" := by
  decide

end Oscd

namespace Oscd

/-- Strict equality between an attribute of a present element and the
optionally-chained attribute of a possibly absent element: it holds exactly
when the other element exists and the two attributes agree as options
(both absent — `null === null` — counts, while an absent element yields
`undefined`, which no attribute value equals). -/
theorem attrJs_eq_iff (d : Dom) (r : Nat) (a : String) (e : Option Nat)
    (b : String) :
    attrJs d (some r) a = attrJs d e b ↔
      (match e with
       | some dev => attrOf d r a = attrOf d dev b
       | none => False) := by
  cases e with
  | none => cases h : attrOf d r a <;> simp [attrJs, h]
  | some dev =>
      cases h1 : attrOf d r a <;> cases h2 : attrOf d dev b <;>
        simp [attrJs, h1, h2]

/-- Claim C7: `isSubscribedTo` holds exactly when the reference's
owner-device attribute equals the name of the device enclosing the data
point (strictly — an absent device matches nothing, two absent name
attributes match each other), the six remaining identifying attributes
agree with absent values read as the empty string, and the edition check
holds: trivially for the 2003 edition, and for later editions the declared
service type equals the message type implied by the control kind and the
declared source logical-device instance, prefix, class, instance and
control-block name equal those of the control block's enclosing `LDevice`,
enclosing `LN0` and the control block itself, absent attributes again read
as empty on both sides. -/
theorem isSubscribedTo_characterization (d : Dom) (k : ControlTag)
    (cb fcda : Option Nat) (r : Nat) :
    isSubscribedTo d k cb fcda r = true ↔
      ((match fcda.bind (closestTag d ["IED"]) with
        | some dev => attrOf d r "iedName" = attrOf d dev "name"
        | none => False) ∧
       attrOrEmpty d fcda "ldInst" = attrOrEmpty d (some r) "ldInst" ∧
       attrOrEmpty d fcda "prefix" = attrOrEmpty d (some r) "prefix" ∧
       attrOrEmpty d fcda "lnClass" = attrOrEmpty d (some r) "lnClass" ∧
       attrOrEmpty d fcda "lnInst" = attrOrEmpty d (some r) "lnInst" ∧
       attrOrEmpty d fcda "doName" = attrOrEmpty d (some r) "doName" ∧
       attrOrEmpty d fcda "daName" = attrOrEmpty d (some r) "daName" ∧
       (if getSclSchemaVersion d = "2003" then True
        else
          ((attrOf d r "serviceType").getD "" = serviceTypeOf k ∧
           attrOrEmpty d (some r) "srcLDInst" =
             attrOrEmpty d (cb.bind (closestTag d ["LDevice"])) "inst" ∧
           attrOrEmpty d (some r) "srcPrefix" =
             attrOrEmpty d (cb.bind (closestTag d ["LN0"])) "prefix" ∧
           attrOrEmpty d (some r) "srcLNClass" =
             attrOrEmpty d (cb.bind (closestTag d ["LN0"])) "lnClass" ∧
           attrOrEmpty d (some r) "srcLNInst" =
             attrOrEmpty d (cb.bind (closestTag d ["LN0"])) "inst" ∧
           attrOrEmpty d (some r) "srcCBName" = attrOrEmpty d cb "name"))) := by
  by_cases hv : getSclSchemaVersion d = "2003" <;>
    simp [isSubscribedTo, iedNameMatches, sameAttributeValue,
      sameAttributeValueDiffName, checkEditionSpecificRequirements,
      attrJs_eq_iff, hv, Bool.and_eq_true, and_assoc]

/-- Claim C5: `isSupervisionAllowed` holds exactly when the schema edition
is not 2003, the subscriber has a supervision-class `LN`, no existing
supervision value equals the control block's reference string, and the
occupied-slot count is strictly below the parsed capacity; in particular a
subscriber at capacity 2 with both slots occupied refuses supervision, and
clearing one slot's value makes it allowed again. -/
theorem isSupervisionAllowed_characterization :
    (∀ (d : Dom) (cb ied : Nat) (st : String),
      isSupervisionAllowed d cb ied st = true ↔
        (getSclSchemaVersion d ≠ "2003" ∧
         (qselLnClass d ied st).isSome = true ∧
         (∀ v ∈ getSupervisionCbRefs d ied (tagOf d cb),
            textMatchesRef d v cb = false) ∧
         ((instantiatedSupervisionsCount d ied cb : Int) <
           maxSupervisions d ied (tagOf d cb)))) ∧
    isSupervisionAllowed docAtCapacity 4 5 "LGOS" = false ∧
    isSupervisionAllowed docOneCleared 4 5 "LGOS" = true := by
  refine ⟨?_, by decide, by decide⟩
  intro d cb ied st
  unfold isSupervisionAllowed
  by_cases h1 : getSclSchemaVersion d = "2003"
  · simp [h1]
  · simp only [h1, if_false]
    by_cases h2 : qselLnClass d ied st = none
    · simp [h2]
    · simp only [h2, if_false]
      cases h3 : (getSupervisionCbRefs d ied (tagOf d cb)).find?
          (fun v => textMatchesRef d v cb) with
      | some v =>
          simp only [h3, Option.isSome_some, if_true]
          refine iff_of_false (by simp) (fun hr => ?_)
          have hv := List.find?_some h3
          have hmem := List.mem_of_find?_eq_some h3
          have := hr.2.2.1 v hmem
          rw [this] at hv
          cases hv
      | none =>
          simp only [h3, Option.isSome_none, if_false]
          have hall := List.find?_eq_none.mp h3
          by_cases h4 : maxSupervisions d ied (tagOf d cb) ≤
              (instantiatedSupervisionsCount d ied cb : Int)
          · refine iff_of_false (by simp [h4]) (fun hr => ?_)
            exact absurd hr.2.2.2 (not_lt.mpr h4)
          · refine iff_of_true (by simp [h4]) ?_
            refine ⟨h1, Option.isSome_iff_ne_none.mpr h2, ?_, not_le.mp h4⟩
            intro v hv
            simpa using hall v hv

end Oscd

namespace Oscd

/-- Destructuring of a matched supervision `Val`: its parent chain is a
`DAI[name="setSrcRef"]` below a `DOI[name=sn]` below a supervision-class
logical node. -/
theorem isSupervisionVal_elim {d : Dom} {st sn : String} {v : Nat}
    (h : isSupervisionVal d st sn v = true) :
    tagOf d v = "Val" ∧ ∃ dai doi ln,
      parentOf d v = some dai ∧ tagOf d dai = "DAI" ∧
      attrOf d dai "name" = some "setSrcRef" ∧
      parentOf d dai = some doi ∧ tagOf d doi = "DOI" ∧
      attrOf d doi "name" = some sn ∧
      parentOf d doi = some ln ∧
      (tagOf d ln = "LN" ∨ tagOf d ln = "LN0") ∧
      attrOf d ln "lnClass" = some st := by
  unfold isSupervisionVal parentMatch matchTagAttr at h
  rw [Bool.and_eq_true] at h
  obtain ⟨htag, hrest⟩ := h
  cases hdai : parentOf d v with
  | none => simp [hdai] at hrest
  | some dai =>
      simp only [hdai] at hrest
      rw [Bool.and_eq_true, Bool.and_eq_true] at hrest
      obtain ⟨⟨hdt, hdn⟩, hrest⟩ := hrest
      cases hdoi : parentOf d dai with
      | none => simp [hdoi] at hrest
      | some doi =>
          simp only [hdoi] at hrest
          rw [Bool.and_eq_true, Bool.and_eq_true] at hrest
          obtain ⟨⟨hot, hon⟩, hrest⟩ := hrest
          cases hln : parentOf d doi with
          | none => simp [hln] at hrest
          | some ln =>
              simp only [hln] at hrest
              rw [Bool.and_eq_true] at hrest
              obtain ⟨hlt, hlc⟩ := hrest
              refine ⟨by simpa using htag, dai, doi, ln, rfl,
                by simpa using hdt, by simpa using hdn, hdoi,
                by simpa using hot, by simpa using hon, hln,
                by simpa using hlt, by simpa using hlc⟩

/-- Walking `closest('LN0, LN')` from a matched supervision `Val` reaches
the logical node at the head of its chain. -/
theorem closest_ln_of_chain (d : Dom) {v dai doi ln : Nat}
    (hv : tagOf d v = "Val") (h1 : parentOf d v = some dai)
    (hdai : tagOf d dai = "DAI") (h2 : parentOf d dai = some doi)
    (hdoi : tagOf d doi = "DOI") (h3 : parentOf d doi = some ln)
    (hln : tagOf d ln = "LN" ∨ tagOf d ln = "LN0") :
    closestTag d ["LN0", "LN"] v = some ln := by
  have hnvd : v ≠ dai := fun h => by
    rw [h, hdai] at hv; exact absurd hv (by decide)
  have hnvo : v ≠ doi := fun h => by
    rw [h, hdoi] at hv; exact absurd hv (by decide)
  have hnvl : v ≠ ln := fun h => by
    rw [h] at hv; rcases hln with hl | hl <;> rw [hl] at hv <;>
      exact absurd hv (by decide)
  have hndo : dai ≠ doi := fun h => by
    rw [h, hdoi] at hdai; exact absurd hdai (by decide)
  have hndl : dai ≠ ln := fun h => by
    rw [h] at hdai; rcases hln with hl | hl <;> rw [hl] at hdai <;>
      exact absurd hdai (by decide)
  have hnol : doi ≠ ln := fun h => by
    rw [h] at hdoi; rcases hln with hl | hl <;> rw [hl] at hdoi <;>
      exact absurd hdoi (by decide)
  have hnd : ([v, dai, doi, ln] : List Nat).Nodup := by
    simp [List.nodup_cons, hnvd, hnvo, hnvl, hndo, hndl, hnol]
  have hlen : 4 ≤ d.nodes.length := by
    refine fuel_ge_of_four d hnd ?_ ?_ ?_ ?_
    · rw [hv]; decide
    · rw [hdai]; decide
    · rw [hdoi]; decide
    · rcases hln with hl | hl <;> rw [hl] <;> decide
  obtain ⟨m, hm⟩ : ∃ m, fuelOf d = m + 1 + 1 + 1 + 1 := by
    refine ⟨d.nodes.length - 3, ?_⟩
    unfold fuelOf
    omega
  unfold closestTag closestP
  rw [hm]
  rw [closestAux_step d _ _ (by rw [hv]; decide) h1]
  rw [closestAux_step d _ _ (by rw [hdai]; decide) h2]
  rw [closestAux_step d _ _ (by rw [hdoi]; decide) h3]
  rcases hln with hl | hl <;>
    exact closestAux_here d _ _ (by rw [hl]; decide)

/-- Walking `closest('DOI')` from a matched supervision `Val` reaches the
`DOI` of its chain. -/
theorem closest_doi_of_chain (d : Dom) {v dai doi : Nat}
    (hv : tagOf d v = "Val") (h1 : parentOf d v = some dai)
    (hdai : tagOf d dai = "DAI") (h2 : parentOf d dai = some doi)
    (hdoi : tagOf d doi = "DOI") :
    closestTag d ["DOI"] v = some doi := by
  have hnvd : v ≠ dai := fun h => by
    rw [h, hdai] at hv; exact absurd hv (by decide)
  have hnvo : v ≠ doi := fun h => by
    rw [h, hdoi] at hv; exact absurd hv (by decide)
  have hndo : dai ≠ doi := fun h => by
    rw [h, hdoi] at hdai; exact absurd hdai (by decide)
  have hnd : ([v, dai, doi] : List Nat).Nodup := by
    simp [List.nodup_cons, hnvd, hnvo, hndo]
  have hlen : 3 ≤ d.nodes.length := by
    have hsub : ([v, dai, doi] : List Nat) ⊆ d.nodes.map Prod.fst := by
      intro x hx
      simp only [List.mem_cons, List.not_mem_nil, or_false] at hx
      rcases hx with rfl | rfl | rfl
      · exact mem_nodes_of_tag d (by rw [hv]; decide)
      · exact mem_nodes_of_tag d (by rw [hdai]; decide)
      · exact mem_nodes_of_tag d (by rw [hdoi]; decide)
    have := (hnd.subperm hsub).length_le
    simpa using this
  obtain ⟨m, hm⟩ : ∃ m, fuelOf d = m + 1 + 1 + 1 := by
    refine ⟨d.nodes.length - 2, ?_⟩
    unfold fuelOf
    omega
  unfold closestTag closestP
  rw [hm]
  rw [closestAux_step d _ _ (by rw [hv]; decide) h1]
  rw [closestAux_step d _ _ (by rw [hdai]; decide) h2]
  exact closestAux_here d _ _ (by rw [hdoi]; decide)

end Oscd

namespace Oscd

/-- Claim C4: `removeSubscriptionSupervision`, on a control block and a
subscriber device, returns the empty batch when no supervision value text
equals the control block's reference string; when such a value is found,
its enclosing logical node and `DOI` resolve, and the batch is a single
`Remove` of the whole logical node when it carries the OpenSCD-created
marker, and of the `DOI` container alone — leaving the logical node —
otherwise. -/
theorem removeSubscriptionSupervision_characterization (d : Dom)
    (cb ied : Nat) (hw : Dom.wfParents d) (hied : tagOf d ied = "IED") :
    ((getSupervisionCbRefs d ied (tagOf d cb)).find?
        (fun v => textMatchesRef d v cb) = none →
      removeSubscriptionSupervision d (some cb) (some ied) = []) ∧
    (∀ v, (getSupervisionCbRefs d ied (tagOf d cb)).find?
        (fun v => textMatchesRef d v cb) = some v →
      ∃ ln doi, closestTag d ["LN0", "LN"] v = some ln ∧
        closestTag d ["DOI"] v = some doi ∧
        removeSubscriptionSupervision d (some cb) (some ied) =
          (if (qsel d ln
              (matchTagAttr d "Private" "type" "OpenSCD.create")).isSome
           then [.remove ln] else [.remove doi])) := by
  constructor
  · intro h
    simp [removeSubscriptionSupervision, h]
  · intro v hfind
    have hmem := List.mem_of_find?_eq_some hfind
    have hmem2 : v ∈ (strictDesc d ied).filter
        (isSupervisionVal d (supervisionTypeFor (tagOf d cb))
          (supervisionNameFor (supervisionTypeFor (tagOf d cb)))) := by
      simpa [getSupervisionCbRefs] using hmem
    obtain ⟨hstrict, hval⟩ := List.mem_filter.mp hmem2
    obtain ⟨hv, dai, doi, ln, h1, hdai, hdn, h2, hdoi, hdn2, h3, hln, hlc⟩ :=
      isSupervisionVal_elim hval
    have hcl := closest_ln_of_chain d hv h1 hdai h2 hdoi h3 hln
    have hcd := closest_doi_of_chain d hv h1 hdai h2 hdoi
    have hdai_strict : dai ∈ strictDesc d ied := by
      rcases parent_of_strict d hw hstrict h1 with h | h
      · exfalso
        rw [h, hied] at hdai
        exact absurd hdai (by decide)
      · exact h
    have hdoi_strict : doi ∈ strictDesc d ied := by
      rcases parent_of_strict d hw hdai_strict h2 with h | h
      · exfalso
        rw [h, hied] at hdoi
        exact absurd hdoi (by decide)
      · exact h
    have hln_strict : ln ∈ strictDesc d ied := by
      rcases parent_of_strict d hw hdoi_strict h3 with h | h
      · exfalso
        rw [h, hied] at hln
        rcases hln with hx | hx <;> exact absurd hx (by decide)
      · exact h
    obtain ⟨u, hu⟩ := Option.isSome_iff_exists.mp
      (parent_isSome_of_strict d hw hln_strict)
    refine ⟨ln, doi, hcl, hcd, ?_⟩
    simp [removeSubscriptionSupervision, hfind, hcl, hu, hcd]

/-- Claim C10: `removeSubscriptionSupervision` yields at most one `Remove`
action, and yields the empty batch whenever an argument is absent, no
supervision value matches the control block's reference string, the found
value has no enclosing logical node, or that logical node has no parent
element. -/
theorem removeSubscriptionSupervision_guards (d : Dom)
    (cb ied : Option Nat) :
    (removeSubscriptionSupervision d cb ied).length ≤ 1 ∧
    (cb = none ∨ ied = none → removeSubscriptionSupervision d cb ied = []) ∧
    (∀ c i, cb = some c → ied = some i →
      ((getSupervisionCbRefs d i (tagOf d c)).find?
          (fun v => textMatchesRef d v c) = none →
        removeSubscriptionSupervision d cb ied = []) ∧
      (∀ v, (getSupervisionCbRefs d i (tagOf d c)).find?
          (fun v => textMatchesRef d v c) = some v →
        (closestTag d ["LN0", "LN"] v = none →
          removeSubscriptionSupervision d cb ied = []) ∧
        (∀ ln, closestTag d ["LN0", "LN"] v = some ln →
          parentOf d ln = none →
          removeSubscriptionSupervision d cb ied = []))) := by
  refine ⟨?_, ?_, ?_⟩
  · rcases cb with _ | c
    · simp [removeSubscriptionSupervision]
    rcases ied with _ | i
    · simp [removeSubscriptionSupervision]
    unfold removeSubscriptionSupervision
    cases hfind : (getSupervisionCbRefs d i (tagOf d c)).find?
        (fun v => textMatchesRef d v c) with
    | none => simp [hfind]
    | some v =>
        cases hcl : closestTag d ["LN0", "LN"] v with
        | none => simp [hfind, hcl]
        | some ln =>
            cases hp : parentOf d ln with
            | none => simp [hfind, hcl, hp]
            | some u =>
                by_cases hm : (qsel d ln
                    (matchTagAttr d "Private" "type" "OpenSCD.create")).isSome
                · simp [hfind, hcl, hp, hm]
                · cases hdoi : closestTag d ["DOI"] v with
                  | none => simp [hfind, hcl, hp, hm, hdoi]
                  | some doi => simp [hfind, hcl, hp, hm, hdoi]
  · rintro (rfl | rfl)
    · simp [removeSubscriptionSupervision]
    · rcases cb with _ | c <;> simp [removeSubscriptionSupervision]
  · rintro c i rfl rfl
    refine ⟨?_, ?_⟩
    · intro h
      simp [removeSubscriptionSupervision, h]
    · intro v hfind
      refine ⟨?_, ?_⟩
      · intro hcl
        simp [removeSubscriptionSupervision, hfind, hcl]
      · intro ln hcl hp
        simp [removeSubscriptionSupervision, hfind, hcl, hp]

end Oscd

namespace Oscd

/-- `docAtCapacity` with the first supervision slot holding `gse1`'s
reference string (a user-authored record: no OpenSCD marker). -/
def docSupervised : Dom :=
  ⟨docAtCapacity.nodes.map (fun p =>
      if p.1 = 12 then (12, ⟨"Val", [], "PUBld1/LLN0.gse1"⟩) else p),
   docAtCapacity.children, 0, 17⟩

/-- `docSupervised` with the OpenSCD-created marker added to the first
supervision logical node (an engine-created record). -/
def docSupervisedTagged : Dom :=
  ⟨docSupervised.nodes ++ [(17, ⟨"Private", [("type", "OpenSCD.create")], ""⟩)],
   docSupervised.children.map (fun p => if p.1 = 9 then (9, [17, 10]) else p),
   0, 18⟩

/-- Claim C4, witness: on a user-authored record the batch removes only the
`DOI` container; on an engine-created record it removes the whole logical
node. -/
theorem removeSubscriptionSupervision_characterization_witness :
    removeSubscriptionSupervision docSupervised (some 4) (some 5) =
      [.remove 10] ∧
    removeSubscriptionSupervision docSupervisedTagged (some 4) (some 5) =
      [.remove 9] := by
  constructor
  · obtain ⟨ln, doi, hcl, hcd, heq⟩ :=
      (removeSubscriptionSupervision_characterization docSupervised 4 5
        (by decide) (by decide)).2 12 (by decide)
    have hln : ln = 9 := by
      have h2 : closestTag docSupervised ["LN0", "LN"] 12 = some 9 := by decide
      rw [hcl] at h2
      exact Option.some.inj h2
    have hdoi : doi = 10 := by
      have h2 : closestTag docSupervised ["DOI"] 12 = some 10 := by decide
      rw [hcd] at h2
      exact Option.some.inj h2
    subst hln hdoi
    rw [heq]
    decide
  · obtain ⟨ln, doi, hcl, hcd, heq⟩ :=
      (removeSubscriptionSupervision_characterization docSupervisedTagged 4 5
        (by decide) (by decide)).2 12 (by decide)
    have hln : ln = 9 := by
      have h2 : closestTag docSupervisedTagged ["LN0", "LN"] 12 = some 9 := by
        decide
      rw [hcl] at h2
      exact Option.some.inj h2
    have hdoi : doi = 10 := by
      have h2 : closestTag docSupervisedTagged ["DOI"] 12 = some 10 := by
        decide
      rw [hcd] at h2
      exact Option.some.inj h2
    subst hln hdoi
    rw [heq]
    decide

/-- Claim C10, witness: with an absent control block the batch is empty,
and on a concrete document the batch holds at most one action. -/
theorem removeSubscriptionSupervision_guards_witness :
    removeSubscriptionSupervision docAtCapacity none (some 5) = [] ∧
    (removeSubscriptionSupervision docSupervised (some 4) (some 5)).length ≤
      1 := by
  exact ⟨(removeSubscriptionSupervision_guards docAtCapacity none
      (some 5)).2.1 (Or.inl rfl),
    (removeSubscriptionSupervision_guards docSupervised (some 4)
      (some 5)).1⟩

end Oscd

namespace Oscd

/-- `indexOf?` of the first occurrence after a clean prefix. -/
theorem indexOf?_eq_length (xs ys : List Nat) (dev : Nat) (h : dev ∉ xs) :
    (xs ++ dev :: ys).indexOf? dev = some xs.length := by
  induction xs with
  | nil => simp [List.indexOf?, List.findIdx?_cons]
  | cons a as ih =>
      simp only [List.mem_cons, not_or] at h
      have hne : (a == dev) = false :=
        beq_eq_false_iff_ne.mpr (fun hx => h.1 hx.symm)
      have ih2 := ih h.2
      unfold List.indexOf? at ih2 ⊢
      rw [List.cons_append, List.findIdx?_cons, hne]
      simp only [Bool.false_eq_true, if_false]
      rw [List.findIdx?_succ, ih2]
      rfl

/-- Inserting before the first occurrence of a reference that heads the
suffix. -/
theorem insertBeforeRef_spec (xs0 rest : List Nat) (c x0 : Nat)
    (h : x0 ∉ xs0) :
    insertBeforeRef (xs0 ++ x0 :: rest) c x0 = xs0 ++ c :: x0 :: rest := by
  induction xs0 with
  | nil => simp [insertBeforeRef]
  | cons a as ih =>
      simp only [List.mem_cons, not_or] at h
      have hne : a ≠ x0 := fun hx => h.1 hx.symm
      simp only [List.cons_append, insertBeforeRef, hne, if_false]
      show a :: insertBeforeRef (as ++ x0 :: rest) c x0 =
        a :: (as ++ c :: x0 :: rest)
      rw [ih h.2]

/-- A filter by disequality is the identity when the element is absent. -/
theorem filter_ne_of_not_mem {l : List Nat} {n : Nat} (h : n ∉ l) :
    l.filter (· ≠ n) = l := by
  induction l with
  | nil => rfl
  | cons a as ih =>
      have hne : a ≠ n := fun hx => h (by simp [hx])
      simp only [List.filter_cons]
      rw [if_pos (by simp [hne])]
      rw [ih (fun hx => h (by simp [hx]))]

/-- Filtering out a node that occurs once between two clean runs. -/
theorem filter_ne_middle (xs ys : List Nat) (dev : Nat) (h1 : dev ∉ xs)
    (h2 : dev ∉ ys) :
    (xs ++ dev :: ys).filter (· ≠ dev) = xs ++ ys := by
  rw [List.filter_append, filter_ne_of_not_mem h1, List.filter_cons]
  rw [if_neg (by simp)]
  rw [filter_ne_of_not_mem h2]

/-- The previous element sibling of a uniquely-listed child is the last
entry of the preceding run. -/
theorem prevElemSibling_eq (d : Dom) {root dev : Nat} (xs ys : List Nat)
    (hw : Dom.wfParents d) (hk : kidsOf d root = xs ++ dev :: ys)
    (hnx : dev ∉ xs) :
    prevElemSibling d dev = xs.getLast? := by
  have hdev : dev ∈ kidsOf d root := by rw [hk]; simp
  have hp : parentOf d dev = some root := parent_eq_of_kid d hw hdev
  unfold prevElemSibling
  rw [hp]
  show (match (kidsOf d root).indexOf? dev with
        | none => none
        | some 0 => none
        | some (j + 1) => (kidsOf d root).get? j) = xs.getLast?
  rw [hk, indexOf?_eq_length xs ys dev hnx]
  cases xs with
  | nil => rfl
  | cons a as =>
      have hlt : as.length < (a :: as).length := by simp
      show ((a :: as) ++ dev :: ys).get? as.length = (a :: as).getLast?
      rw [List.get?_append (by simpa using hlt)]
      have hg := List.getLast?_eq_get? (a :: as)
      simp only [List.length_cons, Nat.add_sub_cancel] at hg
      exact hg.symm

end Oscd

namespace Oscd

/-! Facts about `cloneSubtree`: the node store grows by a pure append whose
head is the clone root's data, while root id and existing entries are
untouched. -/

/-- Cloning a forest appends to the node store and preserves the root
id. -/
theorem cloneF_props (src : Dom) :
    ∀ (f : Nat) (l : List Nat) (acc : Dom),
      ∃ ext, (cloneF src f l acc).1.nodes = acc.nodes ++ ext ∧
        (cloneF src f l acc).1.rootId = acc.rootId := by
  intro f
  induction f with
  | zero => intro l acc; exact ⟨[], by simp [cloneF], rfl⟩
  | succ m ih =>
      intro l acc
      cases l with
      | nil => exact ⟨[], by simp [cloneF], rfl⟩
      | cons n rest =>
          obtain ⟨e1, h1, hr1⟩ := ih (kidsOf src n)
            (addNodeData acc (getData src n)).1
          obtain ⟨e2, h2, hr2⟩ := ih rest
            (setKids (cloneF src m (kidsOf src n)
              (addNodeData acc (getData src n)).1).1
              (addNodeData acc (getData src n)).2
              (cloneF src m (kidsOf src n)
                (addNodeData acc (getData src n)).1).2)
          refine ⟨(acc.nextId, getData src n) :: (e1 ++ e2), ?_, ?_⟩
          · have step1 : (cloneF src (m + 1) (n :: rest) acc).1.nodes =
                (cloneF src m rest
                  (setKids (cloneF src m (kidsOf src n)
                      (addNodeData acc (getData src n)).1).1
                    (addNodeData acc (getData src n)).2
                    (cloneF src m (kidsOf src n)
                      (addNodeData acc (getData src n)).1).2)).1.nodes := rfl
            rw [step1, h2, setKids_nodes, h1]
            simp [addNodeData]
          · have step1 : (cloneF src (m + 1) (n :: rest) acc).1.rootId =
                (cloneF src m rest
                  (setKids (cloneF src m (kidsOf src n)
                      (addNodeData acc (getData src n)).1).1
                    (addNodeData acc (getData src n)).2
                    (cloneF src m (kidsOf src n)
                      (addNodeData acc (getData src n)).1).2)).1.rootId := rfl
            rw [step1, hr2]
            have hsk : ∀ dd : Dom, ∀ p lk, (setKids dd p lk).rootId =
                dd.rootId := by
              intro dd p lk
              unfold setKids
              split <;> rfl
            rw [hsk, hr1]
            rfl

/-- Clone facts specialized to `cloneSubtree`: the store grows by an append
headed by the clone root's copy of the template's data, the root id is
unchanged, and the clone root id is the old `nextId`. -/
theorem cloneSubtree_props (d : Dom) (t : Nat) :
    ∃ ext, (cloneSubtree d t).1.nodes =
        d.nodes ++ (d.nextId, getData d t) :: ext ∧
      (cloneSubtree d t).1.rootId = d.rootId ∧
      (cloneSubtree d t).2 = d.nextId := by
  obtain ⟨m, hm⟩ : ∃ m, fuelOf d = m + 1 := ⟨d.nodes.length, rfl⟩
  unfold cloneSubtree
  rw [hm]
  obtain ⟨e1, h1, hr1⟩ := cloneF_props d m (kidsOf d t)
    (addNodeData d (getData d t)).1
  obtain ⟨e2, h2, hr2⟩ := cloneF_props d m ([] : List Nat)
    (setKids (cloneF d m (kidsOf d t) (addNodeData d (getData d t)).1).1
      (addNodeData d (getData d t)).2
      (cloneF d m (kidsOf d t) (addNodeData d (getData d t)).1).2)
  refine ⟨e1 ++ e2, ?_, ?_, rfl⟩
  · have step1 : (cloneF d (m + 1) [t] d).1.nodes =
        (cloneF d m []
          (setKids (cloneF d m (kidsOf d t)
              (addNodeData d (getData d t)).1).1
            (addNodeData d (getData d t)).2
            (cloneF d m (kidsOf d t)
              (addNodeData d (getData d t)).1).2)).1.nodes := rfl
    rw [step1, h2, setKids_nodes, h1]
    simp [addNodeData]
  · have step1 : (cloneF d (m + 1) [t] d).1.rootId =
        (cloneF d m []
          (setKids (cloneF d m (kidsOf d t)
              (addNodeData d (getData d t)).1).1
            (addNodeData d (getData d t)).2
            (cloneF d m (kidsOf d t)
              (addNodeData d (getData d t)).1).2)).1.rootId := rfl
    rw [step1, hr2]
    have hsk : ∀ dd : Dom, ∀ p lk, (setKids dd p lk).rootId = dd.rootId := by
      intro dd p lk
      unfold setKids
      split <;> rfl
    rw [hsk, hr1]
    rfl

end Oscd

namespace Oscd

/-- Attribute update on an attribute list always makes the binding
retrievable. -/
theorem find?_attr_update (attrs : List (String × String)) (a v : String) :
    (((if (attrs.find? (fun p => p.1 = a)).isSome then
        attrs.map (fun p => if p.1 = a then (a, v) else p)
      else attrs ++ [(a, v)]).find? (fun p => p.1 = a)).map Prod.snd) =
      some v := by
  induction attrs with
  | nil => simp [List.find?]
  | cons p rest ih =>
      by_cases hpa : p.1 = a
      · have hpres : ((p :: rest).find? (fun q => q.1 = a)).isSome := by
          simp [List.find?, hpa]
        rw [if_pos hpres]
        simp [List.find?, hpa]
      · have hfind_cons : (p :: rest).find? (fun q => q.1 = a) =
            rest.find? (fun q => q.1 = a) := by
          simp [List.find?, hpa]
        rw [hfind_cons]
        by_cases hr : (rest.find? (fun q => q.1 = a)).isSome
        · rw [if_pos hr, List.map_cons]
          have hfp : (if p.1 = a then (a, v) else p) = p := if_neg hpa
          rw [hfp, List.find?_cons_of_neg _ (by simpa using hpa)]
          have h2 := ih
          rw [if_pos hr] at h2
          exact h2
        · rw [if_neg hr, List.cons_append,
            List.find?_cons_of_neg _ (by simpa using hpa)]
          have h2 := ih
          rw [if_neg hr] at h2
          exact h2

/-- After `setAttr` on an existing node, the attribute reads back. -/
theorem setAttr_attrOf_self (d : Dom) (n : Nat) (a v : String)
    (h : (d.nodes.find? (fun p => p.1 = n)).isSome) :
    attrOf (setAttr d n a v) n a = some v := by
  obtain ⟨q, hq⟩ := Option.isSome_iff_exists.mp h
  have hq1 : q.1 = n := by simpa using List.find?_some hq
  have hmap := find?_map_fst
    (fun p : Nat × NodeData => if p.1 = n then (p.1,
      if (p.2.attrs.find? (fun r => r.1 = a)).isSome then
        { p.2 with attrs :=
            p.2.attrs.map (fun r => if r.1 = a then (a, v) else r) }
      else { p.2 with attrs := p.2.attrs ++ [(a, v)] }) else p)
    (fun x => by by_cases hx : x.1 = n <;> simp [hx]) d.nodes n
  unfold attrOf getData setAttr setData
  rw [hmap, hq]
  simp only [Option.map_some', Option.getD_some]
  rw [hq1, if_pos rfl, apply_ite NodeData.attrs]
  exact find?_attr_update q.2.attrs a v

/-- `applyEdit` of a `Remove` is a detach. -/
theorem applyEdit_remove (d : Dom) (n : Nat) :
    applyEdit d (.remove n) = detach d n := rfl

/-- The root's child list after a guarded append-insert. -/
theorem applyInsert_kidsOf_root_none (d : Dom) (root c : Nat)
    (hnc : root ∉ descAux d (fuelOf d) c)
    (hcf : c ∉ kidsOf d root) :
    kidsOf (applyInsert d root c none) root = kidsOf d root ++ [c] := by
  unfold applyInsert
  rw [if_neg hnc]
  show kidsOf (setKids (detach d c) root (kidsOf (detach d c) root ++ [c]))
    root = kidsOf d root ++ [c]
  rw [setKids_kidsOf, if_pos rfl, detach_kidsOf, filter_ne_of_not_mem hcf]

/-- The root's child list after a guarded insert-before. -/
theorem applyInsert_kidsOf_root_some (d : Dom) (root c r : Nat)
    (hnc : root ∉ descAux d (fuelOf d) c)
    (hr : r ∈ kidsOf d root)
    (hcf : c ∉ kidsOf d root) :
    kidsOf (applyInsert d root c (some r)) root =
      insertBeforeRef (kidsOf d root) c r := by
  unfold applyInsert
  rw [if_neg hnc]
  show kidsOf (if r ∈ kidsOf d root then
      setKids (detach d c) root
        (insertBeforeRef (kidsOf (detach d c) root) c r)
    else d) root = _
  rw [if_pos hr, setKids_kidsOf, if_pos rfl, detach_kidsOf,
    filter_ne_of_not_mem hcf]

/-- The document after applying the engine's swap batch for one device. -/
def swapApplied (dc : Dom) (tmpl dev : Nat) : Dom :=
  applyEdits (swapBatch dc tmpl dev).1 (swapBatch dc tmpl dev).2.2

end Oscd

namespace Oscd

/-- A pristine document with two top-level IEDs: the template `T` at
index 0 and the device `A` at index 1. -/
def docTwoIeds : Dom :=
  ⟨[(0, ⟨"SCL", [], ""⟩), (1, ⟨"IED", [("name", "T")], ""⟩),
    (2, ⟨"IED", [("name", "A")], ""⟩)],
   [(0, [1, 2])], 0, 3⟩

/-- Claim C1 (amended): the swap batch removes the selected device and
inserts the deep clone of the template — renamed to the device's name —
under the document element, with the device's previous element sibling as
the insertion reference; since an `Insert` lands its node *before* the
reference, the applied batch leaves the clone immediately before that
previous sibling (or appended at the end when the device had none), one
position before the device's former slot rather than at it. -/
theorem swapBatch_characterization (dc : Dom) (tmpl dev : Nat)
    (xs ys : List Nat) (nm : String)
    (hname : attrOf dc dev "name" = some nm)
    (hfresh : ∀ p ∈ dc.nodes, p.1 < dc.nextId)
    (hkfresh : ∀ k ∈ xs ++ dev :: ys, k < dc.nextId)
    (hk2 : kidsOf (swapBatch dc tmpl dev).1 dc.rootId = xs ++ dev :: ys)
    (hnd : (xs ++ dev :: ys).Nodup)
    (hw2 : Dom.wfParents (swapBatch dc tmpl dev).1)
    (hnc : dc.rootId ∉ descAux (detach (swapBatch dc tmpl dev).1 dev)
        (fuelOf (detach (swapBatch dc tmpl dev).1 dev)) dc.nextId) :
    (swapBatch dc tmpl dev).2.1 = dc.nextId ∧
    (swapBatch dc tmpl dev).2.2 =
      [.remove dev, .insert dc.rootId dc.nextId xs.getLast?] ∧
    prevElemSibling (swapBatch dc tmpl dev).1 dev = xs.getLast? ∧
    attrOf (swapApplied dc tmpl dev) dc.nextId "name" = some nm ∧
    (xs = [] →
      kidsOf (swapApplied dc tmpl dev) dc.rootId = ys ++ [dc.nextId]) ∧
    (∀ xs0 x0, xs = xs0 ++ [x0] →
      kidsOf (swapApplied dc tmpl dev) dc.rootId =
        xs0 ++ dc.nextId :: x0 :: ys) := by
  obtain ⟨ext, hns, hrootp, hcp⟩ := cloneSubtree_props dc tmpl
  have hd2root : (swapBatch dc tmpl dev).1.rootId = dc.rootId := hrootp
  obtain ⟨hxsnd, hconsnd, hdisj⟩ := List.nodup_append.mp hnd
  have hdevxs : dev ∉ xs := fun hmem => hdisj hmem (List.mem_cons_self dev ys)
  have hdevys : dev ∉ ys := (List.nodup_cons.mp hconsnd).1
  have hprev : prevElemSibling (swapBatch dc tmpl dev).1 dev =
      xs.getLast? :=
    prevElemSibling_eq (swapBatch dc tmpl dev).1 xs ys hw2 hk2 hdevxs
  have hbatch : (swapBatch dc tmpl dev).2.2 =
      [.remove dev, .insert ((swapBatch dc tmpl dev).1.rootId) dc.nextId
        (prevElemSibling (swapBatch dc tmpl dev).1 dev)] := rfl
  have hsome : ((cloneSubtree dc tmpl).1.nodes.find?
      (fun p => p.1 = dc.nextId)).isSome := by
    rw [hns, List.find?_append]
    have hnone : dc.nodes.find? (fun p => p.1 = dc.nextId) = none := by
      rw [List.find?_eq_none]
      intro x hx
      simp only [decide_eq_true_eq]
      exact Nat.ne_of_lt (hfresh x hx)
    rw [hnone]
    simp [List.find?]
  have hattr : attrOf (swapApplied dc tmpl dev) dc.nextId "name" =
      some nm := by
    unfold swapApplied
    rw [applyEdits_attrOf]
    have heq : (swapBatch dc tmpl dev).1 =
        setAttr (cloneSubtree dc tmpl).1 dc.nextId "name"
          ((attrOf dc dev "name").getD "null") := rfl
    rw [heq, hname]
    simp only [Option.getD_some]
    exact setAttr_attrOf_self _ _ _ _ hsome
  have hk3 : kidsOf (detach (swapBatch dc tmpl dev).1 dev) dc.rootId =
      xs ++ ys := by
    rw [detach_kidsOf, hk2, filter_ne_middle xs ys dev hdevxs hdevys]
  have hcnotk3 : dc.nextId ∉
      kidsOf (detach (swapBatch dc tmpl dev).1 dev) dc.rootId := by
    rw [hk3]
    intro hmem
    have hlt : dc.nextId < dc.nextId := by
      rcases List.mem_append.mp hmem with h | h
      · exact hkfresh _ (List.mem_append_left _ h)
      · exact hkfresh _ (List.mem_append_right _ (List.mem_cons_of_mem _ h))
    omega
  have hstep : kidsOf (swapApplied dc tmpl dev) dc.rootId =
      kidsOf (applyInsert (detach (swapBatch dc tmpl dev).1 dev)
        ((swapBatch dc tmpl dev).1.rootId) dc.nextId
        (prevElemSibling (swapBatch dc tmpl dev).1 dev)) dc.rootId := rfl
  refine ⟨rfl, by rw [hbatch, hd2root, hprev], hprev, hattr, ?_, ?_⟩
  · intro hxs
    have hrefnone : prevElemSibling (swapBatch dc tmpl dev).1 dev = none := by
      rw [hprev, hxs]
      rfl
    rw [hstep, hd2root, hrefnone,
      applyInsert_kidsOf_root_none _ _ _ hnc hcnotk3, hk3, hxs]
    simp
  · intro xs0 x0 hxs
    have hrefsome : prevElemSibling (swapBatch dc tmpl dev).1 dev =
        some x0 := by
      rw [hprev, hxs, List.getLast?_concat]
    have hx0mem : x0 ∈ kidsOf (detach (swapBatch dc tmpl dev).1 dev)
        dc.rootId := by
      rw [hk3, hxs]
      exact List.mem_append_left _ (List.mem_append_right _ (by simp))
    have hx0notxs0 : x0 ∉ xs0 := by
      intro hm
      rw [hxs] at hxsnd
      obtain ⟨_, _, hdisj2⟩ := List.nodup_append.mp hxsnd
      exact hdisj2 hm (by simp)
    rw [hstep, hd2root, hrefsome,
      applyInsert_kidsOf_root_some _ _ _ _ hnc hx0mem hcnotk3, hk3, hxs,
      List.append_assoc, List.singleton_append]
    exact insertBeforeRef_spec xs0 ys dc.nextId x0 hx0notxs0

/-- Claim C1, witness: on a pristine two-IED document, replacing the
device `A` (index 1, previous sibling the template) puts the renamed
clone at index 0, immediately before the old previous sibling. -/
theorem swapBatch_characterization_witness :
    kidsOf (swapApplied docTwoIeds 1 2) 0 = [3, 1] ∧
    attrOf (swapApplied docTwoIeds 1 2) 3 "name" = some "A" := by
  have h := swapBatch_characterization docTwoIeds 1 2 [1] [] "A"
    (by decide) (by decide) (by decide) (by decide) (by decide) (by decide)
    (by decide)
  have hpos := h.2.2.2.2.2 [] 1 rfl
  have hattr := h.2.2.2.1
  exact ⟨by simpa using hpos, by simpa using hattr⟩

/-- Claim C1, counterexample to the claim as stated: device `A` sat at
index 1 of the document element; after applying the swap batch the element
at index 1 is the template `T`, not a device named `A` — the renamed clone
landed at index 0, before `A`'s former previous sibling. -/
theorem swapBatch_position_cex :
    idxInParent docTwoIeds 2 = some 1 ∧
    attrOf docTwoIeds 2 "name" = some "A" ∧
    (kidsOf (swapApplied docTwoIeds 1 2) 0).get? 1 = some 1 ∧
    attrOf (swapApplied docTwoIeds 1 2) 1 "name" = some "T" ∧
    (kidsOf (swapApplied docTwoIeds 1 2) 0).get? 0 = some 3 ∧
    attrOf (swapApplied docTwoIeds 1 2) 3 "name" = some "A" := by
  decide

end Oscd

namespace Oscd

/-- A document for the rewire pass: template IED `T` (node 1) whose `LN0`
owns its own message definition `gT` (node 7), and device IED `A`
(node 8) with an `Inputs` section (node 11) and two message definitions
`g1`, `g2` (nodes 14, 15) on its `LN0` (node 13). -/
def docGseRewire : Dom :=
  ⟨[(0, ⟨"SCL", [], ""⟩),
    (1, ⟨"IED", [("name", "T")], ""⟩),
    (2, ⟨"LDevice", [("inst", "ld1")], ""⟩),
    (3, ⟨"LN", [("lnClass", "XCBR"), ("inst", "1")], ""⟩),
    (4, ⟨"Inputs", [], ""⟩),
    (5, ⟨"ExtRef", [("iedName", "TPL")], ""⟩),
    (6, ⟨"LN0", [("lnClass", "LLN0"), ("inst", "")], ""⟩),
    (7, ⟨"GSEControl", [("name", "gT")], ""⟩),
    (8, ⟨"IED", [("name", "A")], ""⟩),
    (9, ⟨"LDevice", [("inst", "ld1")], ""⟩),
    (10, ⟨"LN", [("lnClass", "XCBR"), ("inst", "1")], ""⟩),
    (11, ⟨"Inputs", [], ""⟩),
    (12, ⟨"ExtRef", [("iedName", "B")], ""⟩),
    (13, ⟨"LN0", [("lnClass", "LLN0"), ("inst", "")], ""⟩),
    (14, ⟨"GSEControl", [("name", "g1")], ""⟩),
    (15, ⟨"GSEControl", [("name", "g2")], ""⟩)],
   [(0, [1, 8]), (1, [2]), (2, [3, 6]), (3, [4]), (4, [5]), (6, [7]),
    (8, [9]), (9, [10, 13]), (10, [11]), (11, [12]), (13, [14, 15])],
   0, 16⟩

/-- The engine run on `docGseRewire`, replacing device `A` with template
`T`. -/
def gseRewireRun : Option (Dom × List (List Edit)) :=
  replaceIeds docGseRewire [identity docGseRewire 8] (some 1)

/-- Claim C6, evaluation at the failing input: the second (rewire) batch's
`Remove` actions target nodes 14 and 15 — the `GSEControl` elements of the
*original, already detached* device `A` — and not the message-definition
child of the newly inserted clone's control instance (node 25, the clone's
`LN0`): after the run, the clone's `LN0` still carries the template's own
definition `gT` (as node 26) followed by the inserted captured
definitions, and neither removed node was a child of the clone's control
instance.  The claim's "removes every message-definition child already
present on the newly inserted clone's control instance — discarding the
template's own definitions" does not hold of the code. -/
theorem replaceIeds_stale_gse_removes :
    (gseRewireRun.map (fun r => r.2)) =
      some [[.remove 8, .insert 0 20 (some 1)],
        [.remove 23, .insert 22 16 none, .remove 14, .remove 15,
         .insert 25 18 none, .insert 25 19 none]] ∧
    tagOf docGseRewire 14 = "GSEControl" ∧
    attrOf docGseRewire 14 "name" = some "g1" ∧
    tagOf docGseRewire 15 = "GSEControl" ∧
    attrOf docGseRewire 15 "name" = some "g2" ∧
    parentOf docGseRewire 14 = some 13 ∧
    parentOf docGseRewire 15 = some 13 ∧
    (gseRewireRun.map (fun r => tagOf r.1 25)) = some "LN0" ∧
    (gseRewireRun.map (fun r => (kidsOf r.1 25).map
      (fun k => (tagOf r.1 k, attrOf r.1 k "name")))) =
      some [("GSEControl", some "gT"), ("GSEControl", some "g1"),
        ("GSEControl", some "g2")] ∧
    (gseRewireRun.map (fun r =>
      decide (14 ∈ kidsOf r.1 25) || decide (15 ∈ kidsOf r.1 25))) =
      some false := by
  decide

/-- A document whose replaceable device `A` (node 5) owns no `Inputs`
section and no message definition. -/
def docNoInputs : Dom :=
  ⟨[(0, ⟨"SCL", [], ""⟩),
    (1, ⟨"IED", [("name", "T")], ""⟩),
    (2, ⟨"LDevice", [("inst", "ld1")], ""⟩),
    (3, ⟨"LN0", [("lnClass", "LLN0"), ("inst", "")], ""⟩),
    (4, ⟨"GSEControl", [("name", "gT")], ""⟩),
    (5, ⟨"IED", [("name", "A")], ""⟩),
    (6, ⟨"LDevice", [("inst", "ld1")], ""⟩),
    (7, ⟨"LN0", [("lnClass", "LLN0"), ("inst", "")], ""⟩)],
   [(0, [1, 5]), (1, [2]), (2, [3]), (3, [4]), (5, [6]), (6, [7])], 0, 8⟩

/-- Claim C8, evaluation at the failing input: replacing a selected device
that owns no binding section raises a fault (`inputsSections.get(name)!`
is `undefined`, and the subsequent `.forEach` throws a `TypeError`,
modelled as `none`), while the empty-selection and missing-template cases
do dispatch zero batches. -/
theorem replaceIeds_throws_on_missing_inputs :
    replaceIeds docNoInputs [identity docNoInputs 5] (some 1) = none ∧
    replaceIeds docNoInputs [] (some 1) = some (docNoInputs, []) ∧
    replaceIeds docNoInputs [identity docNoInputs 5] none =
      some (docNoInputs, []) := by
  decide

end Oscd

namespace Oscd

/-- All stored node ids are below the fresh-id supply. -/
def freshIds (d : Dom) : Prop := ∀ p ∈ d.nodes, p.1 < d.nextId

instance (d : Dom) : Decidable (freshIds d) := by
  unfold freshIds
  infer_instance

/-- Allocation preserves id freshness. -/
theorem freshIds_addNodeData (d : Dom) (x : NodeData) (h : freshIds d) :
    freshIds (addNodeData d x).1 := by
  intro p hp
  simp only [addNodeData, List.mem_append, List.mem_singleton] at hp
  rcases hp with hp | hp
  · have := h p hp
    simp only [addNodeData]
    omega
  · subst hp
    simp [addNodeData]

/-- `setData` (hence `setAttr` and `setText`) preserves id freshness. -/
theorem freshIds_setData (d : Dom) (n : Nat) (f : NodeData → NodeData)
    (h : freshIds d) : freshIds (setData d n f) := by
  intro p hp
  simp only [setData, List.mem_map] at hp
  obtain ⟨q, hq, hqe⟩ := hp
  have h1 := h q hq
  have : p.1 = q.1 := by
    subst hqe
    by_cases hx : q.1 = n <;> simp [hx]
  simp only [setData]
  omega

/-- `setAttr` preserves id freshness. -/
theorem freshIds_setAttr (d : Dom) (n : Nat) (a v : String)
    (h : freshIds d) : freshIds (setAttr d n a v) :=
  freshIds_setData d n _ h

/-- `setText` preserves id freshness. -/
theorem freshIds_setText (d : Dom) (n : Nat) (s : String)
    (h : freshIds d) : freshIds (setText d n s) :=
  freshIds_setData d n _ h

/-- `setKids` preserves id freshness. -/
theorem freshIds_setKids (d : Dom) (p : Nat) (l : List Nat)
    (h : freshIds d) : freshIds (setKids d p l) := by
  intro q hq
  rw [setKids_nodes] at hq
  have hnext : (setKids d p l).nextId = d.nextId := by
    unfold setKids
    split <;> rfl
  rw [hnext]
  exact h q hq

/-- `createNewSupervisionLnInst` preserves id freshness. -/
theorem freshIds_createNew (d : Dom) (cb ied : Nat) (st : String)
    (h : freshIds d) :
    freshIds (createNewSupervisionLnInst d cb ied st).1 := by
  unfold createNewSupervisionLnInst
  dsimp only
  split
  · exact freshIds_setAttr _ _ _ _ (freshIds_setKids _ _ _
      (freshIds_setAttr _ _ _ _ (freshIds_addNodeData _ _
        (freshIds_addNodeData _ _ h))))
  · split
    · split
      · exact freshIds_setAttr _ _ _ _ (freshIds_setAttr _ _ _ _
          (freshIds_setKids _ _ _ (freshIds_setAttr _ _ _ _
            (freshIds_addNodeData _ _ (freshIds_addNodeData _ _ h)))))
      · exact freshIds_setAttr _ _ _ _ (freshIds_setAttr _ _ _ _
          (freshIds_setAttr _ _ _ _ (freshIds_setKids _ _ _
            (freshIds_setAttr _ _ _ _ (freshIds_addNodeData _ _
              (freshIds_addNodeData _ _ h))))))
    · exact freshIds_setAttr _ _ _ _ (freshIds_setAttr _ _ _ _
        (freshIds_setKids _ _ _ (freshIds_setAttr _ _ _ _
          (freshIds_addNodeData _ _ (freshIds_addNodeData _ _ h)))))

/-- `findOrCreateAvailableLNInst` preserves id freshness. -/
theorem freshIds_findOrCreate (d : Dom) (cb ied : Nat) (st : String)
    (h : freshIds d) :
    freshIds (findOrCreateAvailableLNInst d cb ied st).1 := by
  unfold findOrCreateAvailableLNInst
  dsimp only
  split
  · exact h
  · exact freshIds_createNew d cb ied st h

end Oscd

namespace Oscd

/-- After `setText` on an existing node, the text reads back. -/
theorem setText_textOf_self (d : Dom) (n : Nat) (s : String)
    (h : (d.nodes.find? (fun p => p.1 = n)).isSome) :
    textOf (setText d n s) n = s := by
  obtain ⟨q, hq⟩ := Option.isSome_iff_exists.mp h
  have hq1 : q.1 = n := by simpa using List.find?_some hq
  have hmap := find?_map_fst
    (fun p : Nat × NodeData =>
      if p.1 = n then (p.1, { p.2 with text := s }) else p)
    (fun x => by by_cases hx : x.1 = n <;> simp [hx]) d.nodes n
  unfold textOf getData setText setData
  rw [hmap, hq]
  simp only [Option.map_some', Option.getD_some]
  rw [hq1, if_pos rfl]

/-- `setText` changes no tag. -/
theorem setText_tagOf (d : Dom) (n : Nat) (s : String) (m : Nat) :
    tagOf (setText d n s) m = tagOf d m := by
  have hmap := find?_map_fst
    (fun p : Nat × NodeData =>
      if p.1 = n then (p.1, { p.2 with text := s }) else p)
    (fun x => by by_cases hx : x.1 = n <;> simp [hx]) d.nodes m
  unfold tagOf getData setText setData
  rw [hmap]
  cases hq : d.nodes.find? (fun p => p.1 = m) with
  | none => simp
  | some q =>
      simp only [Option.map_some', Option.getD_some]
      by_cases hx : q.1 = n <;> simp [hx]

/-- `setText` changes no attribute. -/
theorem setText_attrOf (d : Dom) (n : Nat) (s : String) (m : Nat)
    (a : String) : attrOf (setText d n s) m a = attrOf d m a := by
  have hmap := find?_map_fst
    (fun p : Nat × NodeData =>
      if p.1 = n then (p.1, { p.2 with text := s }) else p)
    (fun x => by by_cases hx : x.1 = n <;> simp [hx]) d.nodes m
  unfold attrOf getData setText setData
  rw [hmap]
  cases hq : d.nodes.find? (fun p => p.1 = m) with
  | none => simp
  | some q =>
      simp only [Option.map_some', Option.getD_some]
      by_cases hx : q.1 = n <;> simp [hx]

/-- `closestAux` only depends on the parent map and the predicate. -/
theorem closestAux_congr (d1 d2 : Dom) (p1 p2 : Nat → Bool)
    (hpar : ∀ n, parentOf d1 n = parentOf d2 n)
    (hp : ∀ n, p1 n = p2 n) :
    ∀ f n, closestAux d1 p1 f n = closestAux d2 p2 f n := by
  intro f
  induction f with
  | zero => intro n; rfl
  | succ m ih =>
      intro n
      show (if p1 n then some n else _) = (if p2 n then some n else _)
      rw [hp n]
      by_cases hc : p2 n = true
      · rw [if_pos hc, if_pos hc]
      · rw [if_neg hc, if_neg hc, hpar n]
        cases parentOf d2 n with
        | none => rfl
        | some q => exact ih q

/-- Documents that agree on child stores, store size, tags and attributes
compute the same control-block references. -/
theorem controlBlockReference_congr (d1 d2 : Dom)
    (hch : d1.children = d2.children)
    (hlen : d1.nodes.length = d2.nodes.length)
    (htag : ∀ n, tagOf d1 n = tagOf d2 n)
    (hattr : ∀ n a, attrOf d1 n a = attrOf d2 n a) (cb : Nat) :
    controlBlockReference d1 (some cb) =
      controlBlockReference d2 (some cb) := by
  have hpar : ∀ n, parentOf d1 n = parentOf d2 n := by
    intro n
    unfold parentOf
    rw [hch]
  have hfuel : fuelOf d1 = fuelOf d2 := by
    unfold fuelOf
    rw [hlen]
  have hca : ∀ (tags : List String) (n : Nat),
      closestTag d1 tags n = closestTag d2 tags n := by
    intro tags n
    unfold closestTag closestP
    rw [hfuel]
    exact closestAux_congr d1 d2 _ _ hpar (fun m => by rw [htag m]) _ n
  unfold controlBlockReference cbrLnClass cbrLdInst cbrIedName cbrCbName
    attrJs attrOrEmpty
  dsimp only
  rw [hca, hca, hca]
  cases h1 : closestTag d2 ["LN", "LN0"] cb <;>
    cases h2 : closestTag d2 ["LDevice"] cb <;>
      cases h3 : closestTag d2 ["IED"] cb <;>
        simp [hattr]

/-- `find?` returns the unique element satisfying the predicate. -/
theorem find?_eq_some_of_unique {p : Nat → Bool} {l : List Nat} {v : Nat}
    (hmem : v ∈ l) (hp : p v = true)
    (huniq : ∀ w ∈ l, p w = true → w = v) : l.find? p = some v := by
  induction l with
  | nil => cases hmem
  | cons a as ih =>
      by_cases ha : p a = true
      · have hav : a = v := huniq a (by simp) ha
        subst hav
        simp [List.find?, ha]
      · have hav : a ≠ v := fun hx => ha (hx ▸ hp)
        rw [List.find?_cons_of_neg _ (by simpa using ha)]
        refine ih ?_ (fun w hw hpw => huniq w (List.mem_cons_of_mem _ hw) hpw)
        rcases List.mem_cons.mp hmem with hx | hx
        · exact absurd hx.symm hav
        · exact hx

end Oscd

namespace Oscd

/-- A freshly allocated node is found in the store under its returned id. -/
theorem addNode_find_self (d : Dom) (t : String) :
    (((addNode d t).1.nodes).find?
      (fun p => p.1 = (addNode d t).2)).isSome := by
  rw [List.find?_isSome]
  refine ⟨(d.nextId, ⟨t, [], ""⟩), ?_, by simp [addNode, addNodeData]⟩
  simp [addNode, addNodeData]

/-- Setting the text of a freshly allocated node to the control-block
reference (defaulted to `""`) makes that node's text the reference string
of the resulting document: `setText` perturbs no part of the document that
`controlBlockReference` inspects. -/
theorem textOf_setText_new (d : Dom) (t : String) (cb : Nat) :
    textOf (setText (addNode d t).1 (addNode d t).2
        ((controlBlockReference (addNode d t).1 (some cb)).getD ""))
      (addNode d t).2 =
    ((controlBlockReference
        (setText (addNode d t).1 (addNode d t).2
          ((controlBlockReference (addNode d t).1 (some cb)).getD ""))
        (some cb)).getD "") := by
  have hcongr :
      controlBlockReference
          (setText (addNode d t).1 (addNode d t).2
            ((controlBlockReference (addNode d t).1 (some cb)).getD ""))
          (some cb) =
        controlBlockReference (addNode d t).1 (some cb) := by
    refine controlBlockReference_congr
      (setText (addNode d t).1 (addNode d t).2
        ((controlBlockReference (addNode d t).1 (some cb)).getD ""))
      (addNode d t).1 rfl ?_ ?_ ?_ cb
    · simp [setText, setData]
    · intro n; exact setText_tagOf _ _ _ n
    · intro n a; exact setText_attrOf _ _ _ n a
  rw [hcongr]
  exact setText_textOf_self _ _ _ (addNode_find_self d t)

end Oscd

namespace Oscd

/-- The `Val` phase always ends its batch with an `Insert` of a value node
whose text in the returned document is the control block's reference string
there (defaulted to `""`). -/
theorem superValStep_shape (p : Dom × List Edit) (d3 : Dom)
    (cb availableLN daiElement : Nat) (prev : List Edit)
    (hp : p = superValStep d3 cb availableLN daiElement prev) :
    ∃ dai v,
      p.2.getLast? = some (.insert dai v none) ∧
      textOf p.1 v = ((controlBlockReference p.1 (some cb)).getD "") := by
  subst hp
  unfold superValStep
  dsimp only
  refine ⟨daiElement, (addNode d3 "Val").2, ?_, ?_⟩
  · exact List.getLast?_concat _
  · exact textOf_setText_new d3 "Val" cb

/-- A non-empty `instantiateSubscriptionSupervision` batch ends with an
`Insert` of a value node whose text in the returned document is the control
block's reference string there (defaulted to `""`). -/
theorem instantiate_last_insert (p : Dom × List Edit) (d : Dom)
    (cb ied : Nat)
    (hp : p = instantiateSubscriptionSupervision d (some cb) (some ied)) :
    p.2 = [] ∨
    ∃ dai v,
      p.2.getLast? = some (.insert dai v none) ∧
      textOf p.1 v = ((controlBlockReference p.1 (some cb)).getD "") := by
  unfold instantiateSubscriptionSupervision at hp
  dsimp only at hp
  split at hp
  all_goals
    split at hp
    · exact Or.inl (by rw [hp])
    · split at hp
      · exact Or.inl (by rw [hp])
      · split at hp
        · exact Or.inl (by rw [hp])
        · exact Or.inr (superValStep_shape p _ _ _ _ _ hp)

end Oscd

namespace Oscd

/-- A 2007B4 document with publisher `PUB` owning control blocks `gse1`
(node 4) and `gse2` (node 14) and subscriber `SUB` (node 5, capacity 3)
with one occupied supervision slot (`LN` 9, value text `"OTHERREF"`) and
one clean supervision logical node (`LN` 13). -/
def docFreeSlot : Dom :=
  ⟨[(0, ⟨"SCL", [("version", "2007"), ("revision", "B"), ("release", "4")], ""⟩),
    (1, ⟨"IED", [("name", "PUB")], ""⟩),
    (2, ⟨"LDevice", [("inst", "ld1")], ""⟩),
    (3, ⟨"LN0", [("lnClass", "LLN0"), ("inst", "")], ""⟩),
    (4, ⟨"GSEControl", [("name", "gse1")], ""⟩),
    (5, ⟨"IED", [("name", "SUB")], ""⟩),
    (6, ⟨"Services", [], ""⟩),
    (7, ⟨"SupSubscription", [("maxGo", "3")], ""⟩),
    (8, ⟨"LDevice", [("inst", "sd")], ""⟩),
    (9, ⟨"LN", [("lnClass", "LGOS"), ("inst", "1")], ""⟩),
    (10, ⟨"DOI", [("name", "GoCBRef")], ""⟩),
    (11, ⟨"DAI", [("name", "setSrcRef"), ("valKind", "RO"),
      ("valImport", "true")], ""⟩),
    (12, ⟨"Val", [], "OTHERREF"⟩),
    (13, ⟨"LN", [("lnClass", "LGOS"), ("inst", "2")], ""⟩),
    (14, ⟨"GSEControl", [("name", "gse2")], ""⟩)],
   [(0, [1, 5]), (1, [2]), (2, [3]), (3, [4, 14]), (5, [6, 8]), (6, [7]),
    (8, [9, 13]), (9, [10]), (10, [11]), (11, [12])], 0, 15⟩

/-- `docFreeSlot` after applying the batch that
`instantiateSubscriptionSupervision` builds for control block 4 on
subscriber 5, starting from the document it returns. -/
def docFreeSlotApplied : Dom :=
  applyEdits
    (instantiateSubscriptionSupervision docFreeSlot (some 4) (some 5)).1
    (instantiateSubscriptionSupervision docFreeSlot (some 4) (some 5)).2

/-- Claim C9: a supervision record created by
`instantiateSubscriptionSupervision` for a control block is found again by
`removeSubscriptionSupervision` for the same control block, and by no
control block with a different reference string.  Formally: (a) every
non-empty instantiation batch ends with an `Insert` of a value node whose
text is the control block's computed reference string; (b) on a
well-parented document, a supervision value carrying the control block's
reference string — unique in its device — makes the removal batch
non-empty; (c) a value whose text equals one control block's reference
string matches no control block whose reference string differs. -/
theorem instantiate_remove_supervision_roundtrip :
    (∀ (d : Dom) (cb ied : Nat),
      (instantiateSubscriptionSupervision d (some cb) (some ied)).2 ≠ [] →
      ∃ dai v,
        (instantiateSubscriptionSupervision d (some cb) (some ied)).2.getLast?
            = some (.insert dai v none) ∧
        textOf (instantiateSubscriptionSupervision d (some cb) (some ied)).1 v
            = ((controlBlockReference
                (instantiateSubscriptionSupervision d (some cb)
                  (some ied)).1 (some cb)).getD "")) ∧
    (∀ (d : Dom) (cb ied v : Nat), Dom.wfParents d → tagOf d ied = "IED" →
      v ∈ getSupervisionCbRefs d ied (tagOf d cb) →
      textMatchesRef d v cb = true →
      (∀ w ∈ getSupervisionCbRefs d ied (tagOf d cb),
        textMatchesRef d w cb = true → w = v) →
      removeSubscriptionSupervision d (some cb) (some ied) ≠ []) ∧
    (∀ (d : Dom) (v cb cb2 : Nat), textMatchesRef d v cb = true →
      controlBlockReference d (some cb2) ≠ controlBlockReference d (some cb)
        → textMatchesRef d v cb2 = false) := by
  refine ⟨?_, ?_, ?_⟩
  · intro d cb ied hne
    rcases instantiate_last_insert
        (instantiateSubscriptionSupervision d (some cb) (some ied)) d cb ied
        rfl with h | h
    · exact absurd h hne
    · exact h
  · intro d cb ied v hw hied hmem htm huniq
    have hfind : (getSupervisionCbRefs d ied (tagOf d cb)).find?
        (fun w => textMatchesRef d w cb) = some v :=
      find?_eq_some_of_unique hmem htm huniq
    have hmem2 : v ∈ (strictDesc d ied).filter
        (isSupervisionVal d (supervisionTypeFor (tagOf d cb))
          (supervisionNameFor (supervisionTypeFor (tagOf d cb)))) := by
      simpa [getSupervisionCbRefs] using hmem
    obtain ⟨hstrict, hval⟩ := List.mem_filter.mp hmem2
    obtain ⟨hv, dai, doi, ln, h1, hdai, hdn, h2, hdoi, hdn2, h3, hln, hlc⟩ :=
      isSupervisionVal_elim hval
    have hcl := closest_ln_of_chain d hv h1 hdai h2 hdoi h3 hln
    have hcd := closest_doi_of_chain d hv h1 hdai h2 hdoi
    have hdai_strict : dai ∈ strictDesc d ied := by
      rcases parent_of_strict d hw hstrict h1 with h | h
      · exfalso
        rw [h, hied] at hdai
        exact absurd hdai (by decide)
      · exact h
    have hdoi_strict : doi ∈ strictDesc d ied := by
      rcases parent_of_strict d hw hdai_strict h2 with h | h
      · exfalso
        rw [h, hied] at hdoi
        exact absurd hdoi (by decide)
      · exact h
    have hln_strict : ln ∈ strictDesc d ied := by
      rcases parent_of_strict d hw hdoi_strict h3 with h | h
      · exfalso
        rw [h, hied] at hln
        rcases hln with hx | hx <;> exact absurd hx (by decide)
      · exact h
    obtain ⟨u, hu⟩ := Option.isSome_iff_exists.mp
      (parent_isSome_of_strict d hw hln_strict)
    have hres : removeSubscriptionSupervision d (some cb) (some ied) =
        (if (qsel d ln
            (matchTagAttr d "Private" "type" "OpenSCD.create")).isSome
         then [.remove ln] else [.remove doi]) := by
      simp [removeSubscriptionSupervision, hfind, hcl, hu, hcd]
    rw [hres]
    split <;> simp
  · intro d v cb cb2 htm hne
    unfold textMatchesRef at htm ⊢
    cases hc : controlBlockReference d (some cb) with
    | none =>
        rw [hc] at htm
        exact absurd htm (by simp)
    | some s =>
        rw [hc] at htm
        have ht : textOf d v = s := by simpa using htm
        cases hc2 : controlBlockReference d (some cb2) with
        | none => rfl
        | some s2 =>
            rw [hc, hc2] at hne
            have hs : s2 ≠ s := fun h => hne (by rw [h])
            rw [ht]
            exact decide_eq_false (Ne.symm hs)

end Oscd

namespace Oscd

/-- Claim C9, witness: on `docFreeSlot`, instantiating supervision for
control block 4 on subscriber 5 yields a non-empty batch ending with the
`Insert` of a value node carrying `gse1`'s reference string; after applying
the batch, removal for the same control block yields a non-empty batch,
the created value matches no control block with a differing reference
string (`gse2`, node 14), and removal for that other control block yields
the empty batch. -/
theorem instantiate_remove_supervision_roundtrip_witness :
    (instantiateSubscriptionSupervision docFreeSlot (some 4) (some 5)).2
        ≠ [] ∧
    (∃ dai v,
      (instantiateSubscriptionSupervision docFreeSlot (some 4)
          (some 5)).2.getLast? = some (.insert dai v none) ∧
      textOf (instantiateSubscriptionSupervision docFreeSlot (some 4)
          (some 5)).1 v
          = ((controlBlockReference
              (instantiateSubscriptionSupervision docFreeSlot (some 4)
                (some 5)).1 (some 4)).getD "")) ∧
    removeSubscriptionSupervision docFreeSlotApplied (some 4) (some 5)
        ≠ [] ∧
    textMatchesRef docFreeSlotApplied 17 14 = false ∧
    removeSubscriptionSupervision docFreeSlotApplied (some 14) (some 5)
        = [] := by
  refine ⟨by decide, ?_, ?_, ?_, by decide⟩
  · exact instantiate_remove_supervision_roundtrip.1 docFreeSlot 4 5
      (by decide)
  · exact instantiate_remove_supervision_roundtrip.2.1 docFreeSlotApplied
      4 5 17 (by decide) (by decide) (by decide) (by decide) (by decide)
  · exact instantiate_remove_supervision_roundtrip.2.2 docFreeSlotApplied
      17 4 14 (by decide) (by decide)

end Oscd
